import Mathlib

/-!
Verification development for a small multiplayer arena game server written
in Go.  The source file holds three near-duplicate variants of the program:

* `VA` — the WebSocket variant (players map, two capture points, global
  `points1`/`points2` counters, broadcast over websocket connections);
* `VB` — the UDP variant with three capture points and a per-player
  `points` field;
* `VC` — the UDP variant with two capture points and global
  `points1`/`points2` counters.

Modelling conventions, shared by all three variants:

* Wall-clock time is measured in milliseconds as a `Nat`.  The Go zero
  `time.Time` is `0`, `t.IsZero()` becomes `t = 0`, and `time.Since(t)`
  evaluated at current time `now` becomes `now - t`.  Timestamps stored in
  the state are always past values of the clock, so the Go duration is
  never negative; for a hypothetical future timestamp Go would produce a
  negative duration and every `≥ threshold` test (threshold > 0) would be
  false, which agrees with Nat truncated subtraction giving `0`.
* Coordinates are exact rationals `ℚ`.  The Go code computes Euclidean
  distances with `math.Sqrt` and only ever compares them with each other
  or with nonnegative constants; since `sqrt` is strictly monotone on
  nonnegative reals we compare squared distances instead, which keeps all
  arithmetic inside `ℚ` and preserves every comparison outcome.
* The Go `players` map is an association list `List (Nat × Player)`;
  `players[id]` returning `nil` for a missing key becomes an `Option`
  lookup returning `none`, and a nil-pointer dereference (a Go panic)
  is modelled by the handler returning `none : Option World`.
* Each resolver/broadcast loop is an infinite `for` loop in Go; we embed
  the body of one iteration ("one tick") as a pure state transformer and
  reason about arbitrary finite sequences of ticks.
-/

/-- Squared Euclidean distance between `(x1, y1)` and `(x2, y2)`.  The Go
code computes `math.Sqrt(math.Pow(x1-x2, 2) + math.Pow(y1-y2, 2))`; we keep
the square (see the module docstring). -/
def distSq (x1 y1 x2 y2 : ℚ) : ℚ := (x1 - x2) ^ 2 + (y1 - y2) ^ 2

/-- An inbound client message, Go's `map[string]interface{}` after JSON
decoding: every field is optional.  `action` is the raw string tag. -/
structure Msg where
  id : Option Nat
  x : Option ℚ
  y : Option ℚ
  flipX : Option Bool
  action : Option String
  name : Option String
  skin : Option String
deriving Repr, DecidableEq

namespace VA

/-- The WebSocket variant's `Player` struct (id, position, and the two
per-action cooldown timestamps). -/
structure Player where
  id : Nat
  x : ℚ
  y : ℚ
  lastPushTime : Nat
  lastPullTime : Nat
deriving Repr, DecidableEq

/-- The WebSocket variant's `CapturePoint` struct. -/
structure CapturePoint where
  x : ℚ
  y : ℚ
  radius : ℚ
  isCaptured : Bool
  capturingPlayer : Nat
  captureStart : Nat
  enterTime : Nat
deriving Repr, DecidableEq

/-- The mutable globals of the WebSocket variant that the game logic
touches: the players map, the capture point list and the two score
counters. -/
structure World where
  players : List (Nat × Player)
  capturePoints : List CapturePoint
  points1 : Nat
  points2 : Nat
deriving Repr, DecidableEq

/-- `players[pid]` — first entry with the given key, `none` for Go's nil. -/
def lookupPlayer (pid : Nat) : List (Nat × Player) → Option Player
  | [] => none
  | kp :: rest => if kp.1 = pid then some kp.2 else lookupPlayer pid rest

/-- In-place mutation of the record stored under key `pid` (Go mutates the
struct through the map's pointer). -/
def updatePlayer (pid : Nat) (f : Player → Player) (ps : List (Nat × Player)) :
    List (Nat × Player) :=
  ps.map fun kp => if kp.1 = pid then (kp.1, f kp.2) else kp

/-- `isPlayerInZone`: nil check, then `distance <= cp.Radius` (compared as
squares; `cp.radius` is nonnegative in every configured point). -/
def isPlayerInZone : Option Player → CapturePoint → Bool
  | none, _ => false
  | some p, cp => decide (distSq p.x p.y cp.x cp.y ≤ cp.radius ^ 2)

/-- The uncontested-dwell half of the resolver loop body for one point:
start the dwell timer if it is not running, then capture once
`time.Since(EnterTime) >= 5 * time.Second`. -/
def dwellStep (pid now : Nat) (cp : CapturePoint) : CapturePoint :=
  let cp1 := if cp.enterTime = 0 then { cp with enterTime := now } else cp
  if 5000 ≤ now - cp1.enterTime then
    { cp1 with isCaptured := true, capturingPlayer := pid,
               captureStart := now, enterTime := 0 }
  else cp1

/-- The occupancy/dwell part of `checkCapturePoints` for one point: the
variant consults only `players[1]` and `players[2]`. -/
def capturePhase (p1 p2 : Option Player) (now : Nat) (cp : CapturePoint) :
    CapturePoint :=
  let player1InZone := isPlayerInZone p1 cp
  let player2InZone := isPlayerInZone p2 cp
  if player1InZone && player2InZone then { cp with enterTime := 0 }
  else if player1InZone then dwellStep 1 now cp
  else if player2InZone then dwellStep 2 now cp
  else { cp with enterTime := 0 }

/-- Which global counter a scoring pass increments. -/
inductive Award where
  | nobody
  | playerOne
  | playerTwo
deriving Repr, DecidableEq

/-- The scoring part of `checkCapturePoints` for one point: while captured
by player 1 (resp. 2), every 5 seconds bump `points1` (resp. `points2`)
and reset `CaptureStart`. -/
def scoringPhase (now : Nat) (cp : CapturePoint) : CapturePoint × Award :=
  if cp.isCaptured then
    if cp.capturingPlayer = 1 then
      if 5000 ≤ now - cp.captureStart then
        ({ cp with captureStart := now }, .playerOne)
      else (cp, .nobody)
    else if cp.capturingPlayer = 2 then
      if 5000 ≤ now - cp.captureStart then
        ({ cp with captureStart := now }, .playerTwo)
      else (cp, .nobody)
    else (cp, .nobody)
  else (cp, .nobody)

/-- One capture point's processing in one resolver tick (the body of the
`for i := range capturePoints` loop). -/
def tickPoint (p1 p2 : Option Player) (now : Nat) (cp : CapturePoint) :
    CapturePoint × Award :=
  scoringPhase now (capturePhase p1 p2 now cp)

/-- The whole point loop of one resolver tick, also accumulating the
increments to `points1` and `points2`. -/
def tickPoints (p1 p2 : Option Player) (now : Nat) :
    List CapturePoint → List CapturePoint × Nat × Nat
  | [] => ([], 0, 0)
  | cp :: rest =>
    let out := tickPoint p1 p2 now cp
    let rec' := tickPoints p1 p2 now rest
    (out.1 :: rec'.1,
     (match out.2 with | .playerOne => 1 | _ => 0) + rec'.2.1,
     (match out.2 with | .playerTwo => 1 | _ => 0) + rec'.2.2)

/-- One iteration of the `checkCapturePoints` loop at clock value `now`. -/
def checkCapturePointsTick (now : Nat) (w : World) : World :=
  let p1 := lookupPlayer 1 w.players
  let p2 := lookupPlayer 2 w.players
  let out := tickPoints p1 p2 now w.capturePoints
  { w with capturePoints := out.1,
           points1 := w.points1 + out.2.1,
           points2 := w.points2 + out.2.2 }

/-- The two capture points configured at process start. -/
def initialCapturePoints : List CapturePoint :=
  [ { x := 300, y := 200, radius := 50, isCaptured := false,
      capturingPlayer := 0, captureStart := 0, enterTime := 0 },
    { x := 800, y := 600, radius := 50, isCaptured := false,
      capturingPlayer := 0, captureStart := 0, enterTime := 0 } ]

/-- The process-start world. -/
def initialWorld : World :=
  { players := [], capturePoints := initialCapturePoints,
    points1 := 0, points2 := 0 }

/-- The inputs one resolver tick reads besides the capture state: the
players map as the inbound handlers / displacement tasks have left it, and
the clock.  Handlers never touch `capturePoints`/`points1`/`points2`, so a
run of resolver ticks with arbitrary per-tick player maps covers every
reachable capture-point state. -/
structure TickInput where
  players : List (Nat × Player)
  now : Nat

/-- A finite run of resolver ticks from a starting world, with arbitrary
handler activity (modelled as wholesale replacement of the players map)
between consecutive ticks. -/
def runTicks : List TickInput → World → World
  | [], w => w
  | i :: rest, w =>
    runTicks rest (checkCapturePointsTick i.now { w with players := i.players })

/-- The nearest-other-player scan shared by `applyPush`/`applyPull`:
keep the strictly closest candidate among all players with another id,
together with its (squared) distance.  The Go loop starts from
`closestDistance := math.MaxFloat64`, so the first candidate always
replaces the initial value; we carry the best-so-far as an `Option`
starting from `none` instead. -/
def findClosestLoop (actor : Player) :
    List (Nat × Player) → Option (Player × ℚ) → Option (Player × ℚ)
  | [], best => best
  | kp :: rest, best =>
    if kp.2.id ≠ actor.id then
      let d := distSq actor.x actor.y kp.2.x kp.2.y
      match best with
      | none => findClosestLoop actor rest (some (kp.2, d))
      | some pd =>
        if d < pd.2 then findClosestLoop actor rest (some (kp.2, d))
        else findClosestLoop actor rest (some pd)
    else findClosestLoop actor rest best

/-- The whole nearest-other-player scan. -/
def findClosest (actor : Player) (ps : List (Nat × Player)) :
    Option (Player × ℚ) :=
  findClosestLoop actor ps none

/-- One displacement step's increment along one axis.  The Go goroutine
adds `(dx / distance) * strength / float64(steps)` where `dx` has already
been divided by `length`; `length` and `distance` are the same Euclidean
distance (both are the actor-to-target distance), so the net increment is
`dx0 / dsq * 1000 / 10` with `dx0` the raw coordinate difference and
`dsq` the squared distance — which is exact in `ℚ`.  (When the two players
coincide, `length == 0` skips the normalisation and the Go expression is
`0.0/0.0 = NaN`; theorems about displacement therefore assume
`dsq ≠ 0`.) -/
def stepDelta (dx0 dsq : ℚ) : ℚ := dx0 / dsq * 1000 / 10

/-- One iteration of the displacement goroutine's loop body: mutate the
target's position under the lock. -/
def displacementStep (targetId : Nat) (dx dy dsq : ℚ)
    (ps : List (Nat × Player)) : List (Nat × Player) :=
  updatePlayer targetId
    (fun p => { p with x := p.x + stepDelta dx dsq, y := p.y + stepDelta dy dsq })
    ps

/-- The displacement goroutine run to completion: `steps` iterations of
`displacementStep` (the sleeps between steps only interleave other events,
which we study separately). -/
def displacementTask (targetId : Nat) (dx dy dsq : ℚ) :
    Nat → List (Nat × Player) → List (Nat × Player)
  | 0, ps => ps
  | n + 1, ps =>
    displacementTask targetId dx dy dsq n (displacementStep targetId dx dy dsq ps)

/-- `applyPush` with the scheduled goroutine's ten steps folded in: find
the nearest other player; if one exists at distance strictly below 100
(compared as squares), displace it along the actor-to-target vector. -/
def applyPush (actor : Player) (w : World) : World :=
  match findClosest actor w.players with
  | none => w
  | some td =>
    if td.2 < 100 ^ 2 then
      let dx := td.1.x - actor.x
      let dy := td.1.y - actor.y
      { w with players := displacementTask td.1.id dx dy td.2 10 w.players }
    else w

/-- `applyPull`: identical to `applyPush` except the vector is
target-to-actor. -/
def applyPull (actor : Player) (w : World) : World :=
  match findClosest actor w.players with
  | none => w
  | some td =>
    if td.2 < 100 ^ 2 then
      let dx := actor.x - td.1.x
      let dy := actor.y - td.1.y
      { w with players := displacementTask td.1.id dx dy td.2 10 w.players }
    else w

/-- `handleAction`: per-action 2-second cooldown check against the
player's stored timestamp; on success the timestamp is set to the current
time (on the shared record, i.e. in the map) and the interaction is
applied.  The trailing `broadcastGameState()` only writes to the network
and is omitted. -/
def handleAction (now : Nat) (p : Player) (action : String) (w : World) :
    World :=
  match action with
  | "push" =>
    if 2000 < now - p.lastPushTime then
      let p' := { p with lastPushTime := now }
      applyPush p'
        { w with players := updatePlayer p.id (fun q => { q with lastPushTime := now }) w.players }
    else w
  | "pull" =>
    if 2000 < now - p.lastPullTime then
      let p' := { p with lastPullTime := now }
      applyPull p'
        { w with players := updatePlayer p.id (fun q => { q with lastPullTime := now }) w.players }
    else w
  | _ => w

/-- Apply the optional `x`/`y` fields of a message to a player record. -/
def applyPosFields (msg : Msg) (p : Player) : Player :=
  let p1 := match msg.x with | some vx => { p with x := vx } | none => p
  match msg.y with | some vy => { p1 with y := vy } | none => p1

/-- The per-message body of `handleConnections`' read loop: if the message
carries an `id`, fetch `players[id]` and apply the present fields.  When
the id is unknown, the Go code holds a nil `*Player`: an assignment
`player.X = x` or `player.Y = y` panics at the first present coordinate
field (the `none` result); otherwise `handleAction(nil, a)` is reached,
whose switch reads `player.LastPushTime`/`player.LastPullTime` only in
its "push"/"pull" cases — so those two tags panic, while any other
action string matches no case and falls through without touching the nil
pointer.  A message with an unknown id and no panicking field is a state
no-op. -/
def handleMessage (now : Nat) (w : World) (msg : Msg) : Option World :=
  match msg.id with
  | none => some w
  | some pid =>
    match lookupPlayer pid w.players with
    | none =>
      if msg.x.isSome || msg.y.isSome then none
      else
        match msg.action with
        | some a => if a = "push" || a = "pull" then none else some w
        | none => some w
    | some p =>
      let p' := applyPosFields msg p
      let w1 := { w with players := updatePlayer pid (fun _ => p') w.players }
      match msg.action with
      | some a => some (handleAction now p' a w1)
      | none => some w1

/-- First-contact registration in `handleConnections`: allocate
`len(players) + 1` and insert a fresh record at position (400, 400). -/
def registerPlayer (w : World) : World × Nat :=
  let playerID := w.players.length + 1
  ({ w with players :=
      (playerID,
        { id := playerID, x := 400, y := 400,
          lastPushTime := 0, lastPullTime := 0 }) :: w.players },
   playerID)

end VA

namespace VB

/-- The UDP (per-player scoring) variant's `Player` struct. -/
structure Player where
  id : Nat
  x : ℚ
  y : ℚ
  flipX : Bool
  lastPushTime : Nat
  lastPullTime : Nat
  name : String
  skin : String
  points : Nat
deriving Repr, DecidableEq

/-- The UDP (per-player scoring) variant's `CapturePoint` struct, with the
transient `currentCapturingPlayer` display field. -/
structure CapturePoint where
  x : ℚ
  y : ℚ
  radius : ℚ
  isCaptured : Bool
  capturingPlayer : Nat
  currentCapturingPlayer : Nat
  captureStart : Nat
  enterTime : Nat
deriving Repr, DecidableEq

/-- The mutable globals of this variant that the game logic touches. -/
structure World where
  players : List (Nat × Player)
  capturePoints : List CapturePoint
deriving Repr, DecidableEq

/-- `players[pid]`. -/
def lookupPlayer (pid : Nat) : List (Nat × Player) → Option Player
  | [] => none
  | kp :: rest => if kp.1 = pid then some kp.2 else lookupPlayer pid rest

/-- Mutate the record stored under key `pid`. -/
def updatePlayer (pid : Nat) (f : Player → Player) (ps : List (Nat × Player)) :
    List (Nat × Player) :=
  ps.map fun kp => if kp.1 = pid then (kp.1, f kp.2) else kp

/-- `isPlayerInZone` (the players handed to it by the resolver loop are
never nil): `distance <= cp.Radius`, compared as squares. -/
def isPlayerInZone (p : Player) (cp : CapturePoint) : Bool :=
  decide (distSq p.x p.y cp.x cp.y ≤ cp.radius ^ 2)

/-- The `for _, player := range players` scan of the resolver: remember
the first occupant; on meeting a second occupant give up (`nil`) and stop
(the Go loop also zeroes `EnterTime` there, which the `capturingPlayer ==
nil` branch of the caller repeats, so the final state is the same). -/
def findCapturingPlayer (cp : CapturePoint) :
    List (Nat × Player) → Option Player → Option Player
  | [], acc => acc
  | kp :: rest, acc =>
    if isPlayerInZone kp.2 cp then
      match acc with
      | none => findCapturingPlayer cp rest (some kp.2)
      | some _ => none
    else findCapturingPlayer cp rest acc

/-- The occupancy/dwell part of this variant's `checkCapturePoints` for
one point: with a sole occupant, record it for display, run the dwell
timer, and after 5 seconds (re)assign ownership unless the point is
already captured by the same player; with zero or several occupants,
clear the timer and the display field. -/
def tickPointCapture (ps : List (Nat × Player)) (now : Nat)
    (cp : CapturePoint) : CapturePoint :=
  match findCapturingPlayer cp ps none with
  | some p =>
    let cp1 := { cp with currentCapturingPlayer := p.id }
    let cp2 := if cp1.enterTime = 0 then { cp1 with enterTime := now } else cp1
    if 5000 ≤ now - cp2.enterTime then
      if cp2.isCaptured = false ∨ cp2.capturingPlayer ≠ p.id then
        { cp2 with isCaptured := true, capturingPlayer := p.id,
                   captureStart := now, enterTime := 0 }
      else cp2
    else cp2
  | none => { cp with enterTime := 0, currentCapturingPlayer := 0 }

/-- The scoring part for one point: while captured, every 5 seconds give
the owner one point and reset `CaptureStart`.  The returned `Option Nat`
is the id whose `points` field the Go code increments through
`players[cp.CapturingPlayer]` (never nil here: this variant never removes
players and owners come from the map). -/
def tickPointScoring (now : Nat) (cp : CapturePoint) :
    CapturePoint × Option Nat :=
  if cp.isCaptured then
    if 5000 ≤ now - cp.captureStart then
      if cp.capturingPlayer ≠ 0 then
        ({ cp with captureStart := now }, some cp.capturingPlayer)
      else (cp, none)
    else (cp, none)
  else (cp, none)

/-- The point loop of one resolver tick, threading the players map
through the per-point score awards. -/
def tickPoints (now : Nat) :
    List CapturePoint → List (Nat × Player) →
      List CapturePoint × List (Nat × Player)
  | [], ps => ([], ps)
  | cp :: rest, ps =>
    let cp1 := tickPointCapture ps now cp
    let out := tickPointScoring now cp1
    let ps1 :=
      match out.2 with
      | some owner => updatePlayer owner (fun p => { p with points := p.points + 1 }) ps
      | none => ps
    let next := tickPoints now rest ps1
    (out.1 :: next.1, next.2)

/-- One iteration of this variant's `checkCapturePoints` loop. -/
def checkCapturePointsTick (now : Nat) (w : World) : World :=
  let out := tickPoints now w.capturePoints w.players
  { players := out.2, capturePoints := out.1 }

/-- The three capture points configured at process start. -/
def initialCapturePoints : List CapturePoint :=
  [ { x := 300, y := 200, radius := 50, isCaptured := false,
      capturingPlayer := 0, currentCapturingPlayer := 0,
      captureStart := 0, enterTime := 0 },
    { x := 800, y := 600, radius := 50, isCaptured := false,
      capturingPlayer := 0, currentCapturingPlayer := 0,
      captureStart := 0, enterTime := 0 },
    { x := 550, y := 400, radius := 50, isCaptured := false,
      capturingPlayer := 0, currentCapturingPlayer := 0,
      captureStart := 0, enterTime := 0 } ]

/-- Nearest-other-player scan, identical to the WebSocket variant's. -/
def findClosestLoop (actor : Player) :
    List (Nat × Player) → Option (Player × ℚ) → Option (Player × ℚ)
  | [], best => best
  | kp :: rest, best =>
    if kp.2.id ≠ actor.id then
      let d := distSq actor.x actor.y kp.2.x kp.2.y
      match best with
      | none => findClosestLoop actor rest (some (kp.2, d))
      | some pd =>
        if d < pd.2 then findClosestLoop actor rest (some (kp.2, d))
        else findClosestLoop actor rest (some pd)
    else findClosestLoop actor rest best

/-- The whole nearest-other-player scan. -/
def findClosest (actor : Player) (ps : List (Nat × Player)) :
    Option (Player × ℚ) :=
  findClosestLoop actor ps none

/-- One displacement step increment (see `VA.stepDelta`). -/
def stepDelta (dx0 dsq : ℚ) : ℚ := dx0 / dsq * 1000 / 10

/-- One iteration of the displacement goroutine's loop body. -/
def displacementStep (targetId : Nat) (dx dy dsq : ℚ)
    (ps : List (Nat × Player)) : List (Nat × Player) :=
  updatePlayer targetId
    (fun p => { p with x := p.x + stepDelta dx dsq, y := p.y + stepDelta dy dsq })
    ps

/-- The displacement goroutine run to completion. -/
def displacementTask (targetId : Nat) (dx dy dsq : ℚ) :
    Nat → List (Nat × Player) → List (Nat × Player)
  | 0, ps => ps
  | n + 1, ps =>
    displacementTask targetId dx dy dsq n (displacementStep targetId dx dy dsq ps)

/-- `applyPush`, verbatim copy of the WebSocket variant's. -/
def applyPush (actor : Player) (w : World) : World :=
  match findClosest actor w.players with
  | none => w
  | some td =>
    if td.2 < 100 ^ 2 then
      let dx := td.1.x - actor.x
      let dy := td.1.y - actor.y
      { w with players := displacementTask td.1.id dx dy td.2 10 w.players }
    else w

/-- `applyPull`, verbatim copy of the WebSocket variant's. -/
def applyPull (actor : Player) (w : World) : World :=
  match findClosest actor w.players with
  | none => w
  | some td =>
    if td.2 < 100 ^ 2 then
      let dx := actor.x - td.1.x
      let dy := actor.y - td.1.y
      { w with players := displacementTask td.1.id dx dy td.2 10 w.players }
    else w

/-- `handleAction`, identical cooldown logic to the WebSocket variant
(without the broadcast call). -/
def handleAction (now : Nat) (p : Player) (action : String) (w : World) :
    World :=
  match action with
  | "push" =>
    if 2000 < now - p.lastPushTime then
      let p' := { p with lastPushTime := now }
      applyPush p'
        { w with players := updatePlayer p.id (fun q => { q with lastPushTime := now }) w.players }
    else w
  | "pull" =>
    if 2000 < now - p.lastPullTime then
      let p' := { p with lastPullTime := now }
      applyPull p'
        { w with players := updatePlayer p.id (fun q => { q with lastPullTime := now }) w.players }
    else w
  | _ => w

/-- Apply the optional `x`/`y`/`flipX` fields of a message. -/
def applyPosFields (msg : Msg) (p : Player) : Player :=
  let p1 := match msg.x with | some vx => { p with x := vx } | none => p
  let p2 := match msg.y with | some vy => { p1 with y := vy } | none => p1
  match msg.flipX with | some b => { p2 with flipX := b } | none => p2

/-- `handleUDPMessage`.  No `id` field means first-contact registration:
the Go code evaluates `msg["name"].(string)` and `msg["skin"].(string)`
without the comma-ok form, so a registration message missing either field
panics (`none`).  With an `id`, fields are applied to `players[id]`; an
unknown id leaves a nil pointer: the first present `x`/`y`/`flipX` field
panics on assignment, and `handleAction(nil, a)` panics only for the
"push"/"pull" tags (any other action string matches no switch case and
dereferences nothing), while a message with no panicking field only
triggers the (network-only) `sendGameState` reply and is a state
no-op. -/
def handleUDPMessage (now : Nat) (w : World) (msg : Msg) : Option World :=
  match msg.id with
  | none =>
    match msg.name, msg.skin with
    | some nm, some sk =>
      let playerID := w.players.length + 1
      some { w with players :=
        (playerID,
          { id := playerID, x := 400, y := 400, flipX := false,
            lastPushTime := 0, lastPullTime := 0,
            name := nm, skin := sk, points := 0 }) :: w.players }
    | _, _ => none
  | some pid =>
    match lookupPlayer pid w.players with
    | none =>
      if msg.x.isSome || msg.y.isSome || msg.flipX.isSome then none
      else
        match msg.action with
        | some a => if a = "push" || a = "pull" then none else some w
        | none => some w
    | some p =>
      let p' := applyPosFields msg p
      let w1 := { w with players := updatePlayer pid (fun _ => p') w.players }
      match msg.action with
      | some a => some (handleAction now p' a w1)
      | none => some w1

/-- One capture point's complete processing in one resolver tick
(occupancy/dwell followed by scoring), viewed as a transformer of the
point alone.  The point's evolution depends on the players map only
through positions and ids, which the tick itself never changes, so
per-point runs describe each point's trajectory through the world-level
tick loop. -/
def tickPointFull (ps : List (Nat × Player)) (now : Nat) (cp : CapturePoint) :
    CapturePoint :=
  (tickPointScoring now (tickPointCapture ps now cp)).1

/-- Inputs one per-point resolver tick reads: the players map as the
handlers have left it, and the clock. -/
structure PointTickInput where
  players : List (Nat × Player)
  now : Nat

/-- A finite run of per-point resolver ticks. -/
def runPoint : List PointTickInput → CapturePoint → CapturePoint
  | [], cp => cp
  | i :: rest, cp => runPoint rest (tickPointFull i.players i.now cp)

/-- `n` scoring passes over one point at the resolver cadence: the `k`-th
pass runs at clock `100 * k` milliseconds (the 100 ms tick period), and
the second component counts the points awarded so far. -/
def scoringRun (cp : CapturePoint) : Nat → CapturePoint × Nat
  | 0 => (cp, 0)
  | n + 1 =>
    let prev := scoringRun cp n
    let out := tickPointScoring (100 * (n + 1)) prev.1
    (out.1, prev.2 + match out.2 with | some _ => 1 | none => 0)

end VB

namespace VC

/-- The UDP (global scoring) variant's `Player` struct. -/
structure Player where
  id : Nat
  x : ℚ
  y : ℚ
  lastPushTime : Nat
  lastPullTime : Nat
deriving Repr, DecidableEq

/-- The UDP (global scoring) variant's `CapturePoint` struct. -/
structure CapturePoint where
  x : ℚ
  y : ℚ
  radius : ℚ
  isCaptured : Bool
  capturingPlayer : Nat
  captureStart : Nat
  enterTime : Nat
deriving Repr, DecidableEq

/-- The mutable globals of this variant that the game logic touches. -/
structure World where
  players : List (Nat × Player)
  capturePoints : List CapturePoint
  points1 : Nat
  points2 : Nat
deriving Repr, DecidableEq

/-- `players[pid]`. -/
def lookupPlayer (pid : Nat) : List (Nat × Player) → Option Player
  | [] => none
  | kp :: rest => if kp.1 = pid then some kp.2 else lookupPlayer pid rest

/-- Mutate the record stored under key `pid`. -/
def updatePlayer (pid : Nat) (f : Player → Player) (ps : List (Nat × Player)) :
    List (Nat × Player) :=
  ps.map fun kp => if kp.1 = pid then (kp.1, f kp.2) else kp

/-- The inner `for _, player := range players` loop of this variant's
resolver, run on a not-yet-captured point: it acts on the first player
found strictly inside the radius and then `break`s.  With no incumbent
(`CapturingPlayer == 0`) or a different incumbent, that player becomes the
incumbent and the timer restarts; the incumbent itself captures after the
timer strictly exceeds 5 seconds, which also immediately awards one global
point (`points1` for id 1, `points2` for every other id).  The returned
pair of naturals are the increments to `points1` and `points2`. -/
def capturePlayersLoop (now : Nat) (cp : CapturePoint) :
    List (Nat × Player) → CapturePoint × Nat × Nat
  | [] => (cp, 0, 0)
  | kp :: rest =>
    if distSq kp.2.x kp.2.y cp.x cp.y < cp.radius ^ 2 then
      if cp.capturingPlayer = 0 then
        ({ cp with capturingPlayer := kp.2.id, enterTime := now }, 0, 0)
      else if cp.capturingPlayer = kp.2.id then
        if 5000 < now - cp.enterTime then
          ({ cp with isCaptured := true },
           if kp.2.id = 1 then (1, 0) else (0, 1))
        else (cp, 0, 0)
      else
        ({ cp with capturingPlayer := kp.2.id, enterTime := now }, 0, 0)
    else capturePlayersLoop now cp rest

/-- One capture point's processing in one tick of this variant's
resolver: uncaptured points run the player loop; a captured point with a
non-zero `CapturingPlayer` has that field and the timer cleared on the
very next tick (the "Точка захвата потеряна" branch). -/
def tickPoint (ps : List (Nat × Player)) (now : Nat) (cp : CapturePoint) :
    CapturePoint × Nat × Nat :=
  if cp.isCaptured = false then capturePlayersLoop now cp ps
  else if cp.isCaptured = true ∧ cp.capturingPlayer ≠ 0 then
    ({ cp with capturingPlayer := 0, enterTime := 0 }, 0, 0)
  else (cp, 0, 0)

/-- The point loop of one resolver tick with the score increments. -/
def tickPoints (ps : List (Nat × Player)) (now : Nat) :
    List CapturePoint → List CapturePoint × Nat × Nat
  | [] => ([], 0, 0)
  | cp :: rest =>
    let out := tickPoint ps now cp
    let next := tickPoints ps now rest
    (out.1 :: next.1, out.2.1 + next.2.1, out.2.2 + next.2.2)

/-- One iteration of this variant's `checkCapturePoints` loop. -/
def checkCapturePointsTick (now : Nat) (w : World) : World :=
  let out := tickPoints w.players now w.capturePoints
  { w with capturePoints := out.1,
           points1 := w.points1 + out.2.1,
           points2 := w.points2 + out.2.2 }

/-- The two capture points configured at process start. -/
def initialCapturePoints : List CapturePoint :=
  [ { x := 300, y := 200, radius := 50, isCaptured := false,
      capturingPlayer := 0, captureStart := 0, enterTime := 0 },
    { x := 800, y := 600, radius := 50, isCaptured := false,
      capturingPlayer := 0, captureStart := 0, enterTime := 0 } ]

/-- The process-start world. -/
def initialWorld : World :=
  { players := [], capturePoints := initialCapturePoints,
    points1 := 0, points2 := 0 }

/-- Nearest-other-player scan, identical to the other variants'. -/
def findClosestLoop (actor : Player) :
    List (Nat × Player) → Option (Player × ℚ) → Option (Player × ℚ)
  | [], best => best
  | kp :: rest, best =>
    if kp.2.id ≠ actor.id then
      let d := distSq actor.x actor.y kp.2.x kp.2.y
      match best with
      | none => findClosestLoop actor rest (some (kp.2, d))
      | some pd =>
        if d < pd.2 then findClosestLoop actor rest (some (kp.2, d))
        else findClosestLoop actor rest (some pd)
    else findClosestLoop actor rest best

/-- The whole nearest-other-player scan. -/
def findClosest (actor : Player) (ps : List (Nat × Player)) :
    Option (Player × ℚ) :=
  findClosestLoop actor ps none

/-- One displacement step increment (see `VA.stepDelta`). -/
def stepDelta (dx0 dsq : ℚ) : ℚ := dx0 / dsq * 1000 / 10

/-- One iteration of the displacement goroutine's loop body. -/
def displacementStep (targetId : Nat) (dx dy dsq : ℚ)
    (ps : List (Nat × Player)) : List (Nat × Player) :=
  updatePlayer targetId
    (fun p => { p with x := p.x + stepDelta dx dsq, y := p.y + stepDelta dy dsq })
    ps

/-- The displacement goroutine run to completion. -/
def displacementTask (targetId : Nat) (dx dy dsq : ℚ) :
    Nat → List (Nat × Player) → List (Nat × Player)
  | 0, ps => ps
  | n + 1, ps =>
    displacementTask targetId dx dy dsq n (displacementStep targetId dx dy dsq ps)

/-- `applyPush`, verbatim copy of the other variants'. -/
def applyPush (actor : Player) (w : World) : World :=
  match findClosest actor w.players with
  | none => w
  | some td =>
    if td.2 < 100 ^ 2 then
      let dx := td.1.x - actor.x
      let dy := td.1.y - actor.y
      { w with players := displacementTask td.1.id dx dy td.2 10 w.players }
    else w

/-- `applyPull`, verbatim copy of the other variants'. -/
def applyPull (actor : Player) (w : World) : World :=
  match findClosest actor w.players with
  | none => w
  | some td =>
    if td.2 < 100 ^ 2 then
      let dx := actor.x - td.1.x
      let dy := actor.y - td.1.y
      { w with players := displacementTask td.1.id dx dy td.2 10 w.players }
    else w

/-- `handleAction`, identical cooldown logic to the other variants'. -/
def handleAction (now : Nat) (p : Player) (action : String) (w : World) :
    World :=
  match action with
  | "push" =>
    if 2000 < now - p.lastPushTime then
      let p' := { p with lastPushTime := now }
      applyPush p'
        { w with players := updatePlayer p.id (fun q => { q with lastPushTime := now }) w.players }
    else w
  | "pull" =>
    if 2000 < now - p.lastPullTime then
      let p' := { p with lastPullTime := now }
      applyPull p'
        { w with players := updatePlayer p.id (fun q => { q with lastPullTime := now }) w.players }
    else w
  | _ => w

/-- Apply the optional `x`/`y` fields of a message. -/
def applyPosFields (msg : Msg) (p : Player) : Player :=
  let p1 := match msg.x with | some vx => { p with x := vx } | none => p
  match msg.y with | some vy => { p1 with y := vy } | none => p1

/-- `handleUDPMessage` of the global-scoring UDP variant.  No `id` field
registers a fresh player at (400, 400) (this variant reads no name/skin).
With an `id`, fields are applied to `players[id]`; an unknown id leaves a
nil pointer: the first present `x`/`y` field panics on assignment
(`none`), and `handleAction(nil, a)` panics only for the "push"/"pull"
tags (any other action string matches no switch case and dereferences
nothing); a message with no panicking field is a state no-op. -/
def handleUDPMessage (now : Nat) (w : World) (msg : Msg) : Option World :=
  match msg.id with
  | none =>
    let playerID := w.players.length + 1
    some { w with players :=
      (playerID,
        { id := playerID, x := 400, y := 400,
          lastPushTime := 0, lastPullTime := 0 }) :: w.players }
  | some pid =>
    match lookupPlayer pid w.players with
    | none =>
      if msg.x.isSome || msg.y.isSome then none
      else
        match msg.action with
        | some a => if a = "push" || a = "pull" then none else some w
        | none => some w
    | some p =>
      let p' := applyPosFields msg p
      let w1 := { w with players := updatePlayer pid (fun _ => p') w.players }
      match msg.action with
      | some a => some (handleAction now p' a w1)
      | none => some w1

/-- Inputs one resolver tick reads besides the capture state (see
`VA.TickInput`). -/
structure TickInput where
  players : List (Nat × Player)
  now : Nat

/-- A finite run of resolver ticks with arbitrary handler activity
between consecutive ticks. -/
def runTicks : List TickInput → World → World
  | [], w => w
  | i :: rest, w =>
    runTicks rest (checkCapturePointsTick i.now { w with players := i.players })

end VC

/-! Concrete worlds, messages and tick sequences used to evaluate the
embedded code on explicit inputs. -/

/-- The first configured capture point of the WebSocket variant, in its
process-start state. -/
def firstPointA : VA.CapturePoint :=
  { x := 300, y := 200, radius := 50, isCaptured := false,
    capturingPlayer := 0, captureStart := 0, enterTime := 0 }

/-- Actor at the origin. -/
def c1Actor : VA.Player :=
  { id := 1, x := 0, y := 0, lastPushTime := 0, lastPullTime := 0 }

/-- Target 50 world units away from the actor on the x-axis. -/
def c1Target : VA.Player :=
  { id := 2, x := 50, y := 0, lastPushTime := 0, lastPullTime := 0 }

/-- Two-player world at distance 50 (inside push/pull range). -/
def c1World : VA.World :=
  { players := [(1, c1Actor), (2, c1Target)],
    capturePoints := VA.initialCapturePoints, points1 := 0, points2 := 0 }

/-- A message naming an unknown player id 99 and carrying an `x` field. -/
def c2Msg : Msg :=
  { id := some 99, x := some 5, y := none, flipX := none,
    action := none, name := none, skin := none }

/-- A message naming an unknown player id 99 with an action tag that is
neither "push" nor "pull". -/
def c2DanceMsg : Msg :=
  { id := some 99, x := none, y := none, flipX := none,
    action := some "dance", name := none, skin := none }

/-- A message naming an unknown player id 99 and carrying no other field. -/
def c2IdOnlyMsg : Msg :=
  { id := some 99, x := none, y := none, flipX := none,
    action := none, name := none, skin := none }

/-- One-player WebSocket world (id 1 only, so id 99 is unknown). -/
def c2WorldA : VA.World :=
  { players := [(1, c1Actor)],
    capturePoints := VA.initialCapturePoints, points1 := 0, points2 := 0 }

/-- One-player record for the per-player-scoring UDP variant. -/
def c2PlayerB : VB.Player :=
  { id := 1, x := 0, y := 0, flipX := false, lastPushTime := 0,
    lastPullTime := 0, name := "a", skin := "s", points := 0 }

/-- One-player world for the per-player-scoring UDP variant. -/
def c2WorldB : VB.World :=
  { players := [(1, c2PlayerB)], capturePoints := VB.initialCapturePoints }

/-- One-player record for the global-scoring UDP variant. -/
def c2PlayerC : VC.Player :=
  { id := 1, x := 0, y := 0, lastPushTime := 0, lastPullTime := 0 }

/-- One-player world for the global-scoring UDP variant. -/
def c2WorldC : VC.World :=
  { players := [(1, c2PlayerC)],
    capturePoints := VC.initialCapturePoints, points1 := 0, points2 := 0 }

/-- A player far away from every capture point. -/
def c3PlayerFar : VA.Player :=
  { id := 1, x := 0, y := 0, lastPushTime := 0, lastPullTime := 0 }

/-- A player with id 3 standing exactly on the first capture point's
center. -/
def c3PlayerThree : VA.Player :=
  { id := 3, x := 300, y := 200, lastPushTime := 0, lastPullTime := 0 }

/-- Players map where id 3 is the sole occupant of the first point. -/
def c3Players : List (Nat × VA.Player) := [(1, c3PlayerFar), (3, c3PlayerThree)]

/-- Two resolver ticks six seconds apart with id 3 solely occupying the
first capture point throughout. -/
def c3Inputs : List VA.TickInput := [⟨c3Players, 1000⟩, ⟨c3Players, 7000⟩]

/-- Sole occupant (id 7) of a point in the per-player-scoring variant. -/
def c3bPlayer : VB.Player :=
  { id := 7, x := 300, y := 200, flipX := false, lastPushTime := 0,
    lastPullTime := 0, name := "n", skin := "s", points := 0 }

/-- Players map with only id 7, standing on the point. -/
def c3bPlayers : List (Nat × VB.Player) := [(7, c3bPlayer)]

/-- A point whose dwell timer started at 1000 ms, not yet captured. -/
def c3bPoint : VB.CapturePoint :=
  { x := 300, y := 200, radius := 50, isCaptured := false,
    capturingPlayer := 0, currentCapturingPlayer := 0,
    captureStart := 0, enterTime := 1000 }

/-- Player 1 inside the first capture point. -/
def c4P1 : VA.Player :=
  { id := 1, x := 300, y := 200, lastPushTime := 0, lastPullTime := 0 }

/-- Player 2 far away from the first capture point. -/
def c4P2 : VA.Player :=
  { id := 2, x := 0, y := 0, lastPushTime := 0, lastPullTime := 0 }

/-- Player 3 also inside the first capture point. -/
def c4P3 : VA.Player :=
  { id := 3, x := 310, y := 200, lastPushTime := 0, lastPullTime := 0 }

/-- Players map where ids 1 and 3 both occupy the first point. -/
def c4Players : List (Nat × VA.Player) := [(1, c4P1), (2, c4P2), (3, c4P3)]

/-- Two resolver ticks five seconds apart with the first point doubly
occupied (ids 1 and 3) throughout. -/
def c4Inputs : List VA.TickInput := [⟨c4Players, 1000⟩, ⟨c4Players, 6001⟩]

/-- Two players of the per-player-scoring variant inside one point. -/
def c4bPlayers : List (Nat × VB.Player) :=
  [(1, { id := 1, x := 300, y := 200, flipX := false, lastPushTime := 0,
         lastPullTime := 0, name := "u", skin := "t", points := 0 }),
   (2, { id := 2, x := 310, y := 200, flipX := false, lastPushTime := 0,
         lastPullTime := 0, name := "v", skin := "w", points := 0 })]

/-- A ten-second contested window (both players inside the whole time). -/
def c4bInputs : List VB.PointTickInput :=
  [⟨c4bPlayers, 1000⟩, ⟨c4bPlayers, 6000⟩, ⟨c4bPlayers, 11000⟩]

/-- Player 1 standing on the first WebSocket-variant capture point. -/
def soloCapturePlayersA : List (Nat × VA.Player) :=
  [(1, { id := 1, x := 300, y := 200, lastPushTime := 0, lastPullTime := 0 })]

/-- Two ticks letting player 1 capture the first point uncontested. -/
def soloCaptureInputsA : List VA.TickInput :=
  [⟨soloCapturePlayersA, 1000⟩, ⟨soloCapturePlayersA, 6001⟩]

/-- The first capture point as the run `soloCaptureInputsA` leaves it:
captured by player 1 at clock 6001. -/
def soloCapturedPointA : VA.CapturePoint :=
  { x := 300, y := 200, radius := 50, isCaptured := true,
    capturingPlayer := 1, captureStart := 6001, enterTime := 0 }

/-- A point of the per-player-scoring variant held by owner 7 with a
fresh capture timestamp. -/
def c5bPoint : VB.CapturePoint :=
  { x := 300, y := 200, radius := 50, isCaptured := true,
    capturingPlayer := 7, currentCapturingPlayer := 7,
    captureStart := 0, enterTime := 0 }

/-- The player record used to exercise the action cooldown. -/
def c6Player : VA.Player :=
  { id := 1, x := 0, y := 0, lastPushTime := 0, lastPullTime := 0 }

/-- Single-player world for the cooldown checks. -/
def c6World : VA.World :=
  { players := [(1, c6Player)],
    capturePoints := VA.initialCapturePoints, points1 := 0, points2 := 0 }

/-- Actor at the origin for the range-cutoff checks. -/
def c7Actor : VA.Player :=
  { id := 1, x := 0, y := 0, lastPushTime := 0, lastPullTime := 0 }

/-- The other player at distance exactly 100 from the actor. -/
def c7Other : VA.Player :=
  { id := 2, x := 100, y := 0, lastPushTime := 0, lastPullTime := 0 }

/-- Two-player world at distance exactly 100. -/
def c7World : VA.World :=
  { players := [(1, c7Actor), (2, c7Other)],
    capturePoints := VA.initialCapturePoints, points1 := 0, points2 := 0 }

/-- The other player at distance 150 from the actor (out of range). -/
def c7FarOther : VA.Player :=
  { id := 2, x := 150, y := 0, lastPushTime := 0, lastPullTime := 0 }

/-- Two-player world at distance 150. -/
def c7FarWorld : VA.World :=
  { players := [(1, c7Actor), (2, c7FarOther)],
    capturePoints := VA.initialCapturePoints, points1 := 0, points2 := 0 }

/-- Player 1 standing on the global-scoring UDP variant's first point. -/
def c8Players : List (Nat × VC.Player) :=
  [(1, { id := 1, x := 300, y := 200, lastPushTime := 0, lastPullTime := 0 })]

/-- Two ticks: player 1 becomes incumbent, then captures the point. -/
def c8InputsTwo : List VC.TickInput := [⟨c8Players, 1000⟩, ⟨c8Players, 7001⟩]

/-- Three ticks: one more tick right after the capture. -/
def c8InputsThree : List VC.TickInput :=
  [⟨c8Players, 1000⟩, ⟨c8Players, 7001⟩, ⟨c8Players, 7101⟩]

/-- Registration message for the per-player-scoring UDP variant (no id,
name and skin present). -/
def c10MsgB : Msg :=
  { id := none, x := none, y := none, flipX := none,
    action := none, name := some "bob", skin := some "red" }

/-- Registration message for the global-scoring UDP variant (no id). -/
def c10MsgC : Msg :=
  { id := none, x := none, y := none, flipX := none,
    action := none, name := none, skin := none }

namespace VA

theorem updatePlayer_cons (pid : Nat) (f : Player → Player)
    (kp : Nat × Player) (rest : List (Nat × Player)) :
    updatePlayer pid f (kp :: rest) =
      (if kp.1 = pid then (kp.1, f kp.2) else kp) :: updatePlayer pid f rest := rfl

theorem lookupPlayer_updatePlayer_self (pid : Nat) (f : Player → Player) :
    ∀ ps, lookupPlayer pid (updatePlayer pid f ps) = (lookupPlayer pid ps).map f
  | [] => rfl
  | kp :: rest => by
    rw [updatePlayer_cons]
    by_cases h : kp.1 = pid
    · simp [lookupPlayer, h]
    · simp [lookupPlayer, h, lookupPlayer_updatePlayer_self pid f rest]

theorem lookupPlayer_updatePlayer_ne {q pid : Nat} (h : q ≠ pid)
    (f : Player → Player) :
    ∀ ps, lookupPlayer q (updatePlayer pid f ps) = lookupPlayer q ps
  | [] => rfl
  | kp :: rest => by
    rw [updatePlayer_cons]
    by_cases h1 : kp.1 = pid
    · have h2 : ¬ kp.1 = q := fun hc => h (by rw [← hc, h1])
      simp [lookupPlayer, h1, h2, Ne.symm h,
        lookupPlayer_updatePlayer_ne h f rest]
    · simp [lookupPlayer, h1, lookupPlayer_updatePlayer_ne h f rest]

theorem lookupPlayer_displacementTask_ne {q tid : Nat} (h : q ≠ tid)
    (dx dy dsq : ℚ) :
    ∀ (n : Nat) (ps : List (Nat × Player)),
      lookupPlayer q (displacementTask tid dx dy dsq n ps) = lookupPlayer q ps
  | 0, ps => rfl
  | n + 1, ps => by
    rw [displacementTask, lookupPlayer_displacementTask_ne h dx dy dsq n,
        displacementStep, lookupPlayer_updatePlayer_ne h]

theorem lookupPlayer_displacementTask_self (tid : Nat) (dx dy dsq : ℚ) :
    ∀ (n : Nat) (ps : List (Nat × Player)),
      lookupPlayer tid (displacementTask tid dx dy dsq n ps) =
        (lookupPlayer tid ps).map
          (fun p => { p with x := p.x + n * stepDelta dx dsq,
                             y := p.y + n * stepDelta dy dsq })
  | 0, ps => by
    rw [displacementTask]
    cases h : lookupPlayer tid ps with
    | none => rfl
    | some p => cases p; simp
  | n + 1, ps => by
    rw [displacementTask, lookupPlayer_displacementTask_self tid dx dy dsq n,
        displacementStep, lookupPlayer_updatePlayer_self]
    cases h : lookupPlayer tid ps with
    | none => rfl
    | some p =>
      cases p
      simp only [Option.map_some', Option.some.injEq, Player.mk.injEq]
      refine ⟨?_, ?_, ?_, ?_, ?_⟩ <;> first | trivial | (push_cast; ring)

theorem applyPush_capturePoints (a : Player) (w : World) :
    (applyPush a w).capturePoints = w.capturePoints ∧
    (applyPush a w).points1 = w.points1 ∧
    (applyPush a w).points2 = w.points2 := by
  unfold applyPush
  cases findClosest a w.players with
  | none => exact ⟨rfl, rfl, rfl⟩
  | some td => by_cases h : td.2 < 100 ^ 2 <;> simp [h]

theorem applyPull_capturePoints (a : Player) (w : World) :
    (applyPull a w).capturePoints = w.capturePoints ∧
    (applyPull a w).points1 = w.points1 ∧
    (applyPull a w).points2 = w.points2 := by
  unfold applyPull
  cases findClosest a w.players with
  | none => exact ⟨rfl, rfl, rfl⟩
  | some td => by_cases h : td.2 < 100 ^ 2 <;> simp [h]

theorem findClosestLoop_cons_none (actor : Player) (kp : Nat × Player)
    (rest : List (Nat × Player)) :
    findClosestLoop actor (kp :: rest) none =
      if kp.2.id ≠ actor.id then
        findClosestLoop actor rest
          (some (kp.2, distSq actor.x actor.y kp.2.x kp.2.y))
      else findClosestLoop actor rest none := rfl

theorem findClosestLoop_cons_some (actor : Player) (kp : Nat × Player)
    (rest : List (Nat × Player)) (pd : Player × ℚ) :
    findClosestLoop actor (kp :: rest) (some pd) =
      if kp.2.id ≠ actor.id then
        (if distSq actor.x actor.y kp.2.x kp.2.y < pd.2 then
          findClosestLoop actor rest
            (some (kp.2, distSq actor.x actor.y kp.2.x kp.2.y))
        else findClosestLoop actor rest (some pd))
      else findClosestLoop actor rest (some pd) := rfl

theorem findClosestLoop_acc_of_all (actor : Player) :
    ∀ (ps : List (Nat × Player)) (acc : Option (Player × ℚ)),
      (∀ kp ∈ ps, kp.2.id = actor.id) → findClosestLoop actor ps acc = acc
  | [], acc, _ => rfl
  | kp :: rest, acc, h => by
    have hkp : kp.2.id = actor.id := h kp (List.mem_cons_self kp rest)
    have hrest : ∀ kp' ∈ rest, kp'.2.id = actor.id :=
      fun kp' h' => h kp' (List.mem_cons_of_mem kp h')
    have ih := findClosestLoop_acc_of_all actor rest acc hrest
    cases acc with
    | none => rw [findClosestLoop_cons_none, if_neg (by simp [hkp]), ih]
    | some pd => rw [findClosestLoop_cons_some, if_neg (by simp [hkp]), ih]

theorem findClosestLoop_none (actor : Player) :
    ∀ (ps : List (Nat × Player)) (acc : Option (Player × ℚ)),
      findClosestLoop actor ps acc = none →
      acc = none ∧ ∀ kp ∈ ps, kp.2.id = actor.id
  | [], acc, h => ⟨h, by simp⟩
  | kp :: rest, acc, h => by
    by_cases hid : kp.2.id = actor.id
    · have hacc : findClosestLoop actor rest acc = none := by
        cases acc with
        | none => rwa [findClosestLoop_cons_none, if_neg (by simp [hid])] at h
        | some pd => rwa [findClosestLoop_cons_some, if_neg (by simp [hid])] at h
      have ih := findClosestLoop_none actor rest acc hacc
      refine ⟨ih.1, ?_⟩
      intro kp' h'
      rcases List.mem_cons.mp h' with h' | h'
      · exact h' ▸ hid
      · exact ih.2 kp' h'
    · exfalso
      cases acc with
      | none =>
        rw [findClosestLoop_cons_none, if_pos hid] at h
        exact Option.noConfusion (findClosestLoop_none actor rest _ h).1
      | some pd =>
        rw [findClosestLoop_cons_some, if_pos hid] at h
        by_cases hlt : distSq actor.x actor.y kp.2.x kp.2.y < pd.2
        · rw [if_pos hlt] at h
          exact Option.noConfusion (findClosestLoop_none actor rest _ h).1
        · rw [if_neg hlt] at h
          exact Option.noConfusion (findClosestLoop_none actor rest _ h).1

theorem findClosestLoop_some (actor : Player) :
    ∀ (ps : List (Nat × Player)) (acc : Option (Player × ℚ)) (t : Player) (d : ℚ),
      findClosestLoop actor ps acc = some (t, d) →
      (acc = some (t, d) ∨
        (d = distSq actor.x actor.y t.x t.y ∧ t.id ≠ actor.id ∧
          ∃ k, (k, t) ∈ ps)) ∧
      (∀ t0 d0, acc = some (t0, d0) → d ≤ d0) ∧
      (∀ kp ∈ ps, kp.2.id ≠ actor.id →
        d ≤ distSq actor.x actor.y kp.2.x kp.2.y)
  | [], acc, t, d, h => by
    have h' : acc = some (t, d) := h
    refine ⟨Or.inl h', ?_, by simp⟩
    intro t0 d0 h0
    rw [h0] at h'
    injection h' with h''
    injection h'' with ht hd
    rw [hd]
  | kp :: rest, acc, t, d, h => by
    by_cases hid : kp.2.id = actor.id
    · have hacc : findClosestLoop actor rest acc = some (t, d) := by
        cases acc with
        | none => rwa [findClosestLoop_cons_none, if_neg (by simp [hid])] at h
        | some pd => rwa [findClosestLoop_cons_some, if_neg (by simp [hid])] at h
      obtain ⟨hsound, haccmin, hmin⟩ := findClosestLoop_some actor rest acc t d hacc
      refine ⟨?_, haccmin, ?_⟩
      · rcases hsound with h1 | h1
        · exact Or.inl h1
        · exact Or.inr ⟨h1.1, h1.2.1, h1.2.2.elim fun k hk =>
            ⟨k, List.mem_cons_of_mem kp hk⟩⟩
      · intro kp' hkp' hkpid
        rcases List.mem_cons.mp hkp' with h' | h'
        · exact absurd (h' ▸ hid) hkpid
        · exact hmin kp' h' hkpid
    · cases acc with
      | none =>
        rw [findClosestLoop_cons_none, if_pos hid] at h
        obtain ⟨hsound, haccmin, hmin⟩ := findClosestLoop_some actor rest _ t d h
        have hdk := haccmin kp.2 (distSq actor.x actor.y kp.2.x kp.2.y) rfl
        refine ⟨?_, by simp, ?_⟩
        · rcases hsound with h1 | h1
          · cases h1
            exact Or.inr ⟨rfl, hid, ⟨kp.1, by simp⟩⟩
          · exact Or.inr ⟨h1.1, h1.2.1, h1.2.2.elim fun k hk =>
              ⟨k, List.mem_cons_of_mem kp hk⟩⟩
        · intro kp' hkp' hkpid
          rcases List.mem_cons.mp hkp' with h' | h'
          · exact h' ▸ hdk
          · exact hmin kp' h' hkpid
      | some pd =>
        rw [findClosestLoop_cons_some, if_pos hid] at h
        by_cases hlt : distSq actor.x actor.y kp.2.x kp.2.y < pd.2
        · rw [if_pos hlt] at h
          obtain ⟨hsound, haccmin, hmin⟩ := findClosestLoop_some actor rest _ t d h
          have hdk := haccmin kp.2 (distSq actor.x actor.y kp.2.x kp.2.y) rfl
          refine ⟨?_, ?_, ?_⟩
          · rcases hsound with h1 | h1
            · cases h1
              exact Or.inr ⟨rfl, hid, ⟨kp.1, by simp⟩⟩
            · exact Or.inr ⟨h1.1, h1.2.1, h1.2.2.elim fun k hk =>
                ⟨k, List.mem_cons_of_mem kp hk⟩⟩
          · intro t0 d0 h0
            cases h0
            exact le_of_lt (lt_of_le_of_lt hdk hlt)
          · intro kp' hkp' hkpid
            rcases List.mem_cons.mp hkp' with h' | h'
            · exact h' ▸ hdk
            · exact hmin kp' h' hkpid
        · rw [if_neg hlt] at h
          obtain ⟨hsound, haccmin, hmin⟩ := findClosestLoop_some actor rest _ t d h
          have hdpd := haccmin pd.1 pd.2 (by simp)
          refine ⟨?_, ?_, ?_⟩
          · rcases hsound with h1 | h1
            · exact Or.inl h1
            · exact Or.inr ⟨h1.1, h1.2.1, h1.2.2.elim fun k hk =>
                ⟨k, List.mem_cons_of_mem kp hk⟩⟩
          · intro t0 d0 h0
            cases h0
            exact hdpd
          · intro kp' hkp' hkpid
            rcases List.mem_cons.mp hkp' with h' | h'
            · subst h'
              exact le_trans hdpd (not_lt.mp hlt)
            · exact hmin kp' h' hkpid

theorem findClosest_some {actor t : Player} {d : ℚ} {ps : List (Nat × Player)}
    (h : findClosest actor ps = some (t, d)) :
    d = distSq actor.x actor.y t.x t.y ∧ t.id ≠ actor.id ∧
    (∃ k, (k, t) ∈ ps) ∧
    ∀ kp ∈ ps, kp.2.id ≠ actor.id → d ≤ distSq actor.x actor.y kp.2.x kp.2.y := by
  obtain ⟨hsound, _, hmin⟩ := findClosestLoop_some actor ps none t d h
  rcases hsound with h1 | h1
  · exact Option.noConfusion h1
  · exact ⟨h1.1, h1.2.1, h1.2.2, hmin⟩

theorem findClosest_none {actor : Player} {ps : List (Nat × Player)}
    (h : findClosest actor ps = none) : ∀ kp ∈ ps, kp.2.id = actor.id :=
  (findClosestLoop_none actor ps none h).2

theorem findClosest_eq_none {actor : Player} {ps : List (Nat × Player)}
    (h : ∀ kp ∈ ps, kp.2.id = actor.id) : findClosest actor ps = none :=
  findClosestLoop_acc_of_all actor ps none h

theorem applyPush_of_none {a : Player} {w : World}
    (h : findClosest a w.players = none) : applyPush a w = w := by
  unfold applyPush
  rw [h]

theorem applyPull_of_none {a : Player} {w : World}
    (h : findClosest a w.players = none) : applyPull a w = w := by
  unfold applyPull
  rw [h]

theorem applyPush_of_far {a t : Player} {d : ℚ} {w : World}
    (h : findClosest a w.players = some (t, d)) (hd : 100 ^ 2 ≤ d) :
    applyPush a w = w := by
  unfold applyPush
  rw [h]
  simp [not_lt.mpr hd]

theorem applyPull_of_far {a t : Player} {d : ℚ} {w : World}
    (h : findClosest a w.players = some (t, d)) (hd : 100 ^ 2 ≤ d) :
    applyPull a w = w := by
  unfold applyPull
  rw [h]
  simp [not_lt.mpr hd]

theorem applyPush_of_near {a t : Player} {d : ℚ} {w : World}
    (h : findClosest a w.players = some (t, d)) (hd : d < 100 ^ 2) :
    (applyPush a w).players =
      displacementTask t.id (t.x - a.x) (t.y - a.y) d 10 w.players := by
  unfold applyPush
  rw [h]
  simp [hd]

theorem applyPull_of_near {a t : Player} {d : ℚ} {w : World}
    (h : findClosest a w.players = some (t, d)) (hd : d < 100 ^ 2) :
    (applyPull a w).players =
      displacementTask t.id (a.x - t.x) (a.y - t.y) d 10 w.players := by
  unfold applyPull
  rw [h]
  simp [hd]

theorem lookupPlayer_applyPush_actor (a : Player) (w : World) :
    lookupPlayer a.id (applyPush a w).players = lookupPlayer a.id w.players := by
  cases h : findClosest a w.players with
  | none => rw [applyPush_of_none h]
  | some td =>
    by_cases hd : td.2 < 100 ^ 2
    · obtain ⟨_, hne, _, _⟩ :=
        findClosest_some (show findClosest a w.players = some (td.1, td.2) from h)
      rw [applyPush_of_near (by rw [h]) hd,
        lookupPlayer_displacementTask_ne (Ne.symm hne)]
    · rw [applyPush_of_far (by rw [h]) (not_lt.mp hd)]

theorem lookupPlayer_applyPull_actor (a : Player) (w : World) :
    lookupPlayer a.id (applyPull a w).players = lookupPlayer a.id w.players := by
  cases h : findClosest a w.players with
  | none => rw [applyPull_of_none h]
  | some td =>
    by_cases hd : td.2 < 100 ^ 2
    · obtain ⟨_, hne, _, _⟩ :=
        findClosest_some (show findClosest a w.players = some (td.1, td.2) from h)
      rw [applyPull_of_near (by rw [h]) hd,
        lookupPlayer_displacementTask_ne (Ne.symm hne)]
    · rw [applyPull_of_far (by rw [h]) (not_lt.mp hd)]

end VA

namespace VB

theorem lookupPlayerB_updatePlayer_self (pid : Nat) (f : Player → Player) :
    ∀ ps, lookupPlayer pid (updatePlayer pid f ps) = (lookupPlayer pid ps).map f
  | [] => rfl
  | kp :: rest => by
    have hcons : updatePlayer pid f (kp :: rest) =
        (if kp.1 = pid then (kp.1, f kp.2) else kp) :: updatePlayer pid f rest := rfl
    rw [hcons]
    by_cases h : kp.1 = pid
    · simp [lookupPlayer, h]
    · simp [lookupPlayer, h, lookupPlayerB_updatePlayer_self pid f rest]

theorem lookupPlayerB_updatePlayer_ne {q pid : Nat} (h : q ≠ pid)
    (f : Player → Player) :
    ∀ ps, lookupPlayer q (updatePlayer pid f ps) = lookupPlayer q ps
  | [] => rfl
  | kp :: rest => by
    have hcons : updatePlayer pid f (kp :: rest) =
        (if kp.1 = pid then (kp.1, f kp.2) else kp) :: updatePlayer pid f rest := rfl
    rw [hcons]
    by_cases h1 : kp.1 = pid
    · have h2 : ¬ kp.1 = q := fun hc => h (by rw [← hc, h1])
      simp [lookupPlayer, h1, h2, Ne.symm h,
        lookupPlayerB_updatePlayer_ne h f rest]
    · simp [lookupPlayer, h1, lookupPlayerB_updatePlayer_ne h f rest]

theorem findCapturingPlayer_cons_none (cp : CapturePoint)
    (kp : Nat × Player) (rest : List (Nat × Player)) :
    findCapturingPlayer cp (kp :: rest) none =
      if isPlayerInZone kp.2 cp then findCapturingPlayer cp rest (some kp.2)
      else findCapturingPlayer cp rest none := rfl

theorem findCapturingPlayer_cons_some (cp : CapturePoint)
    (kp : Nat × Player) (rest : List (Nat × Player)) (a : Player) :
    findCapturingPlayer cp (kp :: rest) (some a) =
      if isPlayerInZone kp.2 cp then none
      else findCapturingPlayer cp rest (some a) := rfl

theorem findCapturingPlayer_some_acc (cp : CapturePoint) :
    ∀ (ps : List (Nat × Player)) (a : Player),
      findCapturingPlayer cp ps (some a) =
        if ps.filter (fun kp => isPlayerInZone kp.2 cp) = [] then some a
        else none
  | [], a => by simp [findCapturingPlayer]
  | kp :: rest, a => by
    by_cases h : isPlayerInZone kp.2 cp
    · have hfc : List.filter (fun kp => isPlayerInZone kp.2 cp) (kp :: rest) =
          kp :: List.filter (fun kp => isPlayerInZone kp.2 cp) rest :=
        List.filter_cons_of_pos h
      rw [findCapturingPlayer_cons_some, if_pos h, hfc]
      simp
    · have hfc : List.filter (fun kp => isPlayerInZone kp.2 cp) (kp :: rest) =
          List.filter (fun kp => isPlayerInZone kp.2 cp) rest :=
        List.filter_cons_of_neg h
      rw [findCapturingPlayer_cons_some, if_neg h,
        findCapturingPlayer_some_acc cp rest a, hfc]

theorem findCapturingPlayer_none_acc (cp : CapturePoint) :
    ∀ ps : List (Nat × Player),
      findCapturingPlayer cp ps none =
        match ps.filter (fun kp => isPlayerInZone kp.2 cp) with
        | [] => none
        | kp :: rest => if rest = [] then some kp.2 else none
  | [] => by simp [findCapturingPlayer]
  | kp :: rest => by
    by_cases h : isPlayerInZone kp.2 cp
    · have hfc : List.filter (fun kp => isPlayerInZone kp.2 cp) (kp :: rest) =
          kp :: List.filter (fun kp => isPlayerInZone kp.2 cp) rest :=
        List.filter_cons_of_pos h
      rw [findCapturingPlayer_cons_none, if_pos h,
        findCapturingPlayer_some_acc cp rest kp.2, hfc]
    · have hfc : List.filter (fun kp => isPlayerInZone kp.2 cp) (kp :: rest) =
          List.filter (fun kp => isPlayerInZone kp.2 cp) rest :=
        List.filter_cons_of_neg h
      rw [findCapturingPlayer_cons_none, if_neg h,
        findCapturingPlayer_none_acc cp rest, hfc]

theorem findCapturingPlayer_sole {cp : CapturePoint}
    {ps : List (Nat × Player)} {kp0 : Nat × Player}
    (h : ps.filter (fun kp => isPlayerInZone kp.2 cp) = [kp0]) :
    findCapturingPlayer cp ps none = some kp0.2 := by
  rw [findCapturingPlayer_none_acc, h]
  simp

theorem findCapturingPlayer_contested {cp : CapturePoint}
    {ps : List (Nat × Player)}
    (h : 2 ≤ (ps.filter (fun kp => isPlayerInZone kp.2 cp)).length) :
    findCapturingPlayer cp ps none = none := by
  rw [findCapturingPlayer_none_acc]
  cases hf : ps.filter (fun kp => isPlayerInZone kp.2 cp) with
  | nil => rfl
  | cons a l =>
    cases l with
    | nil => rw [hf] at h; simp at h
    | cons b l2 => simp

theorem findCapturingPlayer_empty {cp : CapturePoint}
    {ps : List (Nat × Player)}
    (h : ps.filter (fun kp => isPlayerInZone kp.2 cp) = []) :
    findCapturingPlayer cp ps none = none := by
  rw [findCapturingPlayer_none_acc, h]

theorem tickPointScoring_fields (now : Nat) (cp : CapturePoint) :
    (tickPointScoring now cp).1.isCaptured = cp.isCaptured ∧
    (tickPointScoring now cp).1.capturingPlayer = cp.capturingPlayer ∧
    (tickPointScoring now cp).1.x = cp.x ∧
    (tickPointScoring now cp).1.y = cp.y ∧
    (tickPointScoring now cp).1.radius = cp.radius ∧
    (tickPointScoring now cp).1.enterTime = cp.enterTime := by
  unfold tickPointScoring
  split
  · split
    · split
      · exact ⟨rfl, rfl, rfl, rfl, rfl, rfl⟩
      · exact ⟨rfl, rfl, rfl, rfl, rfl, rfl⟩
    · exact ⟨rfl, rfl, rfl, rfl, rfl, rfl⟩
  · exact ⟨rfl, rfl, rfl, rfl, rfl, rfl⟩

theorem tickPointCapture_geom (ps : List (Nat × Player)) (now : Nat)
    (cp : CapturePoint) :
    (tickPointCapture ps now cp).x = cp.x ∧
    (tickPointCapture ps now cp).y = cp.y ∧
    (tickPointCapture ps now cp).radius = cp.radius := by
  unfold tickPointCapture
  cases findCapturingPlayer cp ps none with
  | none => exact ⟨rfl, rfl, rfl⟩
  | some p =>
    by_cases h1 : cp.enterTime = 0 <;>
      simp only [h1, if_true, if_false] <;>
      split <;> first
        | exact ⟨rfl, rfl, rfl⟩
        | (split
           · exact ⟨rfl, rfl, rfl⟩
           · exact ⟨rfl, rfl, rfl⟩)

theorem tickPointFull_geom (ps : List (Nat × Player)) (now : Nat)
    (cp : CapturePoint) :
    (tickPointFull ps now cp).x = cp.x ∧
    (tickPointFull ps now cp).y = cp.y ∧
    (tickPointFull ps now cp).radius = cp.radius := by
  unfold tickPointFull
  obtain ⟨_, _, hx, hy, hr, _⟩ :=
    tickPointScoring_fields now (tickPointCapture ps now cp)
  obtain ⟨gx, gy, gr⟩ := tickPointCapture_geom ps now cp
  exact ⟨hx.trans gx, hy.trans gy, hr.trans gr⟩

theorem isPlayerInZone_congr {cp1 cp2 : CapturePoint} (p : Player)
    (hx : cp1.x = cp2.x) (hy : cp1.y = cp2.y) (hr : cp1.radius = cp2.radius) :
    isPlayerInZone p cp1 = isPlayerInZone p cp2 := by
  unfold isPlayerInZone
  rw [hx, hy, hr]

theorem filterZone_congr {cp1 cp2 : CapturePoint}
    (hx : cp1.x = cp2.x) (hy : cp1.y = cp2.y) (hr : cp1.radius = cp2.radius)
    (ps : List (Nat × Player)) :
    ps.filter (fun kp => isPlayerInZone kp.2 cp1) =
      ps.filter (fun kp => isPlayerInZone kp.2 cp2) := by
  have : (fun kp : Nat × Player => isPlayerInZone kp.2 cp1) =
      (fun kp : Nat × Player => isPlayerInZone kp.2 cp2) :=
    funext fun kp => isPlayerInZone_congr kp.2 hx hy hr
  rw [this]

theorem findCapturingPlayer_congr {cp1 cp2 : CapturePoint}
    (hx : cp1.x = cp2.x) (hy : cp1.y = cp2.y) (hr : cp1.radius = cp2.radius)
    (ps : List (Nat × Player)) :
    findCapturingPlayer cp1 ps none = findCapturingPlayer cp2 ps none := by
  rw [findCapturingPlayer_none_acc, findCapturingPlayer_none_acc,
    filterZone_congr hx hy hr]

theorem tickPointScoring_not_captured {now : Nat} {cp : CapturePoint}
    (h : cp.isCaptured = false) : tickPointScoring now cp = (cp, none) := by
  unfold tickPointScoring
  rw [h]
  simp

theorem tickPointCapture_sole_capture {ps : List (Nat × Player)} {now : Nat}
    {cp : CapturePoint} {p : Player}
    (hocc : findCapturingPlayer cp ps none = some p)
    (he0 : cp.enterTime ≠ 0) (ht : 5000 ≤ now - cp.enterTime)
    (hnew : cp.isCaptured = false ∨ cp.capturingPlayer ≠ p.id) :
    tickPointCapture ps now cp =
      { cp with currentCapturingPlayer := p.id, isCaptured := true,
                capturingPlayer := p.id, captureStart := now,
                enterTime := 0 } := by
  unfold tickPointCapture
  rw [hocc]
  simp [he0, ht, hnew]

theorem tickPointCapture_sole_wait {ps : List (Nat × Player)} {now : Nat}
    {cp : CapturePoint} {p : Player}
    (hocc : findCapturingPlayer cp ps none = some p)
    (he0 : cp.enterTime ≠ 0) (ht : now - cp.enterTime < 5000) :
    tickPointCapture ps now cp = { cp with currentCapturingPlayer := p.id } := by
  unfold tickPointCapture
  rw [hocc]
  have ht' : ¬ (5000 ≤ now - cp.enterTime) := by omega
  simp [he0, ht']

theorem tickPointCapture_sole_start {ps : List (Nat × Player)} {now : Nat}
    {cp : CapturePoint} {p : Player}
    (hocc : findCapturingPlayer cp ps none = some p)
    (he0 : cp.enterTime = 0) :
    tickPointCapture ps now cp =
      { cp with currentCapturingPlayer := p.id, enterTime := now } := by
  unfold tickPointCapture
  rw [hocc]
  simp [he0]

theorem tickPointCapture_sole_owned {ps : List (Nat × Player)} {now : Nat}
    {cp : CapturePoint} {p : Player}
    (hocc : findCapturingPlayer cp ps none = some p)
    (hcap : cp.isCaptured = true) (hown : cp.capturingPlayer = p.id) :
    (tickPointCapture ps now cp).isCaptured = true ∧
    (tickPointCapture ps now cp).capturingPlayer = p.id := by
  unfold tickPointCapture
  rw [hocc]
  by_cases he0 : cp.enterTime = 0
  · simp [he0, hcap, hown]
  · by_cases ht : 5000 ≤ now - cp.enterTime
    · simp [he0, ht, hcap, hown]
    · simp [he0, ht, hcap, hown]

theorem tickPointFull_sole_owned {ps : List (Nat × Player)} {now : Nat}
    {cp : CapturePoint} {p : Player}
    (hocc : findCapturingPlayer cp ps none = some p)
    (hcap : cp.isCaptured = true) (hown : cp.capturingPlayer = p.id) :
    (tickPointFull ps now cp).isCaptured = true ∧
    (tickPointFull ps now cp).capturingPlayer = p.id := by
  obtain ⟨h1, h2⟩ := tickPointCapture_sole_owned hocc hcap hown
  obtain ⟨hs1, hs2, _⟩ := tickPointScoring_fields now (tickPointCapture ps now cp)
  exact ⟨hs1.trans h1, hs2.trans h2⟩

theorem tickPointCapture_contested {ps : List (Nat × Player)} {now : Nat}
    {cp : CapturePoint}
    (h : 2 ≤ (ps.filter (fun kp => isPlayerInZone kp.2 cp)).length) :
    tickPointCapture ps now cp =
      { cp with enterTime := 0, currentCapturingPlayer := 0 } := by
  unfold tickPointCapture
  rw [findCapturingPlayer_contested h]

theorem tickPointFull_contested {ps : List (Nat × Player)} {now : Nat}
    {cp : CapturePoint}
    (h : 2 ≤ (ps.filter (fun kp => isPlayerInZone kp.2 cp)).length) :
    (tickPointFull ps now cp).isCaptured = cp.isCaptured ∧
    (tickPointFull ps now cp).enterTime = 0 := by
  unfold tickPointFull
  rw [tickPointCapture_contested h]
  obtain ⟨h1, _, _, _, _, h6⟩ :=
    tickPointScoring_fields now { cp with enterTime := 0, currentCapturingPlayer := 0 }
  exact ⟨h1, h6⟩

theorem runPoint_contested (cp0 : CapturePoint) :
    ∀ (inputs : List PointTickInput) (cp : CapturePoint),
      cp.x = cp0.x → cp.y = cp0.y → cp.radius = cp0.radius →
      (∀ i ∈ inputs,
        2 ≤ (i.players.filter (fun kp => isPlayerInZone kp.2 cp0)).length) →
      (runPoint inputs cp).isCaptured = cp.isCaptured
  | [], cp, _, _, _, _ => rfl
  | i :: rest, cp, hx, hy, hr, h => by
    have hcont : 2 ≤ (i.players.filter (fun kp => isPlayerInZone kp.2 cp)).length := by
      rw [filterZone_congr hx hy hr]
      exact h i (List.mem_cons_self i rest)
    have hgeom := tickPointFull_geom i.players i.now cp
    have hrun : runPoint (i :: rest) cp =
        runPoint rest (tickPointFull i.players i.now cp) := rfl
    rw [hrun,
      runPoint_contested cp0 rest (tickPointFull i.players i.now cp)
        (hgeom.1.trans hx) (hgeom.2.1.trans hy) (hgeom.2.2.trans hr)
        (fun j hj => h j (List.mem_cons_of_mem i hj)),
      (tickPointFull_contested hcont).1]

theorem runPoint_sole_aux (ps : List (Nat × Player)) (p : Player) :
    ∀ (ts : List Nat) (T e : Nat) (cp : CapturePoint),
      findCapturingPlayer cp ps none = some p →
      ((cp.isCaptured = false ∧ cp.enterTime = e) ∨
        (cp.isCaptured = true ∧ cp.capturingPlayer = p.id)) →
      e ≠ 0 →
      5000 ≤ T - e →
      (runPoint ((ts ++ [T]).map (fun t => ⟨ps, t⟩)) cp).isCaptured = true ∧
      (runPoint ((ts ++ [T]).map (fun t => ⟨ps, t⟩)) cp).capturingPlayer = p.id
  | [], T, e, cp, hocc, hstate, he0, hT => by
    have hrun : runPoint (([] ++ [T]).map (fun t => ⟨ps, t⟩)) cp =
        tickPointFull ps T cp := rfl
    rw [hrun]
    rcases hstate with ⟨hc, he⟩ | ⟨hc, hown⟩
    · have hcapeq := tickPointCapture_sole_capture hocc
        (by rw [he]; exact he0) (by rw [he]; exact hT) (Or.inl hc)
      unfold tickPointFull
      rw [hcapeq]
      obtain ⟨h1, h2, _⟩ := tickPointScoring_fields T
        { cp with currentCapturingPlayer := p.id, isCaptured := true,
                  capturingPlayer := p.id, captureStart := T, enterTime := 0 }
      exact ⟨h1, h2⟩
    · exact tickPointFull_sole_owned hocc hc hown
  | t :: ts, T, e, cp, hocc, hstate, he0, hT => by
    have hrun : runPoint (((t :: ts) ++ [T]).map (fun t => ⟨ps, t⟩)) cp =
        runPoint ((ts ++ [T]).map (fun t => ⟨ps, t⟩))
          (tickPointFull ps t cp) := rfl
    rw [hrun]
    have hgeom := tickPointFull_geom ps t cp
    have hocc' : findCapturingPlayer (tickPointFull ps t cp) ps none = some p :=
      (findCapturingPlayer_congr hgeom.1 hgeom.2.1 hgeom.2.2 ps).trans hocc
    rcases hstate with ⟨hc, he⟩ | ⟨hc, hown⟩
    · by_cases ht : 5000 ≤ t - e
      · have hcapeq := tickPointCapture_sole_capture hocc
          (by rw [he]; exact he0) (by rw [he]; exact ht) (Or.inl hc)
        have hstate' : (tickPointFull ps t cp).isCaptured = true ∧
            (tickPointFull ps t cp).capturingPlayer = p.id := by
          unfold tickPointFull
          rw [hcapeq]
          obtain ⟨h1, h2, _⟩ := tickPointScoring_fields t
            { cp with currentCapturingPlayer := p.id, isCaptured := true,
                      capturingPlayer := p.id, captureStart := t, enterTime := 0 }
          exact ⟨h1, h2⟩
        exact runPoint_sole_aux ps p ts T e _ hocc'
          (Or.inr hstate') he0 hT
      · have hne : cp.enterTime ≠ 0 := by rw [he]; exact he0
        have hlt : t - cp.enterTime < 5000 := by rw [he]; omega
        have hwait := tickPointCapture_sole_wait hocc hne hlt
        have hnc : ({ cp with currentCapturingPlayer := p.id } :
            CapturePoint).isCaptured = false := hc
        have hfull : tickPointFull ps t cp =
            { cp with currentCapturingPlayer := p.id } := by
          unfold tickPointFull
          rw [hwait, tickPointScoring_not_captured hnc]
        refine runPoint_sole_aux ps p ts T e _ hocc' ?_ he0 hT
        rw [hfull]
        exact Or.inl ⟨hc, he⟩
    · exact runPoint_sole_aux ps p ts T e _ hocc'
        (Or.inr (tickPointFull_sole_owned hocc hc hown)) he0 hT

theorem tickPointScoring_award {now : Nat} {cp : CapturePoint}
    (hcap : cp.isCaptured = true) (hown : cp.capturingPlayer ≠ 0)
    (ht : 5000 ≤ now - cp.captureStart) :
    tickPointScoring now cp =
      ({ cp with captureStart := now }, some cp.capturingPlayer) := by
  unfold tickPointScoring
  rw [hcap]
  simp [ht, hown]

theorem tickPointScoring_wait {now : Nat} {cp : CapturePoint}
    (ht : now - cp.captureStart < 5000) :
    tickPointScoring now cp = (cp, none) := by
  unfold tickPointScoring
  have ht' : ¬ (5000 ≤ now - cp.captureStart) := by omega
  cases hc : cp.isCaptured <;> simp [ht']

theorem scoringRun_eq (cp : CapturePoint) (hcap : cp.isCaptured = true)
    (hown : cp.capturingPlayer ≠ 0) (hcs : cp.captureStart = 0) :
    ∀ n, scoringRun cp n =
      ({ cp with captureStart := 5000 * (n / 50) }, n / 50)
  | 0 => by
    obtain ⟨x, y, r, ic, cpl, ccp, cs, et⟩ := cp
    have hcs' : cs = 0 := hcs
    subst hcs'
    simp [scoringRun]
  | n + 1 => by
    rw [scoringRun, scoringRun_eq cp hcap hown hcs n]
    by_cases hc : 5000 ≤ 100 * (n + 1) - 5000 * (n / 50)
    · have haward := tickPointScoring_award
        (show ({ cp with captureStart := 5000 * (n / 50) } :
          CapturePoint).isCaptured = true from hcap)
        (show ({ cp with captureStart := 5000 * (n / 50) } :
          CapturePoint).capturingPlayer ≠ 0 from hown)
        (show 5000 ≤ 100 * (n + 1) -
          ({ cp with captureStart := 5000 * (n / 50) } :
            CapturePoint).captureStart from hc)
      rw [haward]
      have h1 : 100 * (n + 1) = 5000 * ((n + 1) / 50) := by omega
      have h2 : n / 50 + 1 = (n + 1) / 50 := by omega
      rw [h1, h2]
    · have hlt : 100 * (n + 1) - 5000 * (n / 50) < 5000 := by omega
      have hwait := @tickPointScoring_wait (100 * (n + 1))
        { cp with captureStart := 5000 * (n / 50) } hlt
      rw [hwait]
      have h2 : n / 50 = (n + 1) / 50 := by omega
      rw [h2]
      rfl

end VB

namespace VA

theorem scoringPhase_fields (now : Nat) (cp : CapturePoint) :
    (scoringPhase now cp).1.isCaptured = cp.isCaptured ∧
    (scoringPhase now cp).1.capturingPlayer = cp.capturingPlayer ∧
    (scoringPhase now cp).1.enterTime = cp.enterTime := by
  unfold scoringPhase
  split
  · split
    · split
      · exact ⟨rfl, rfl, rfl⟩
      · exact ⟨rfl, rfl, rfl⟩
    · split
      · split
        · exact ⟨rfl, rfl, rfl⟩
        · exact ⟨rfl, rfl, rfl⟩
      · exact ⟨rfl, rfl, rfl⟩
  · exact ⟨rfl, rfl, rfl⟩

theorem dwellStep_inv {pid now : Nat} {cp : CapturePoint}
    (hpid : pid = 1 ∨ pid = 2)
    (h : cp.isCaptured = true →
      cp.capturingPlayer = 1 ∨ cp.capturingPlayer = 2) :
    (dwellStep pid now cp).isCaptured = true →
      (dwellStep pid now cp).capturingPlayer = 1 ∨
      (dwellStep pid now cp).capturingPlayer = 2 := by
  unfold dwellStep
  by_cases he0 : cp.enterTime = 0 <;> simp only [he0, if_true, if_false] <;>
    split <;> intro hc
  · exact hpid
  · exact h hc
  · exact hpid
  · exact h hc

theorem capturePhase_inv {p1 p2 : Option Player} {now : Nat}
    {cp : CapturePoint}
    (h : cp.isCaptured = true →
      cp.capturingPlayer = 1 ∨ cp.capturingPlayer = 2) :
    (capturePhase p1 p2 now cp).isCaptured = true →
      (capturePhase p1 p2 now cp).capturingPlayer = 1 ∨
      (capturePhase p1 p2 now cp).capturingPlayer = 2 := by
  unfold capturePhase
  by_cases h12 : (isPlayerInZone p1 cp && isPlayerInZone p2 cp) = true
  · simp only [h12, if_true]
    exact h
  · simp only [h12, if_false]
    by_cases hz1 : isPlayerInZone p1 cp = true
    · simp only [hz1, if_true]
      exact dwellStep_inv (Or.inl rfl) h
    · simp only [hz1, if_false]
      by_cases hz2 : isPlayerInZone p2 cp = true
      · simp only [hz2, if_true]
        exact dwellStep_inv (Or.inr rfl) h
      · simp only [hz2, if_false]
        exact h

theorem tickPoint_inv {p1 p2 : Option Player} {now : Nat} {cp : CapturePoint}
    (h : cp.isCaptured = true →
      cp.capturingPlayer = 1 ∨ cp.capturingPlayer = 2) :
    (tickPoint p1 p2 now cp).1.isCaptured = true →
      (tickPoint p1 p2 now cp).1.capturingPlayer = 1 ∨
      (tickPoint p1 p2 now cp).1.capturingPlayer = 2 := by
  unfold tickPoint
  obtain ⟨h1, h2, _⟩ := scoringPhase_fields now (capturePhase p1 p2 now cp)
  rw [h1, h2]
  exact capturePhase_inv h

theorem mem_tickPoints (p1 p2 : Option Player) (now : Nat) :
    ∀ (pts : List CapturePoint) (cp' : CapturePoint),
      cp' ∈ (tickPoints p1 p2 now pts).1 →
      ∃ cp ∈ pts, cp' = (tickPoint p1 p2 now cp).1
  | [], cp', h => absurd h (List.not_mem_nil cp')
  | cp :: rest, cp', h => by
    have hcons : (tickPoints p1 p2 now (cp :: rest)).1 =
        (tickPoint p1 p2 now cp).1 :: (tickPoints p1 p2 now rest).1 := rfl
    rw [hcons] at h
    rcases List.mem_cons.mp h with h | h
    · exact ⟨cp, List.mem_cons_self cp rest, h⟩
    · obtain ⟨c, hc, he⟩ := mem_tickPoints p1 p2 now rest cp' h
      exact ⟨c, List.mem_cons_of_mem cp hc, he⟩

theorem checkTick_points (now : Nat) (w : World) :
    (checkCapturePointsTick now w).capturePoints =
      (tickPoints (lookupPlayer 1 w.players) (lookupPlayer 2 w.players) now
        w.capturePoints).1 := rfl

theorem runTicks_inv :
    ∀ (inputs : List TickInput) (w : World),
      (∀ cp ∈ w.capturePoints, cp.isCaptured = true →
        cp.capturingPlayer = 1 ∨ cp.capturingPlayer = 2) →
      ∀ cp ∈ (runTicks inputs w).capturePoints,
        cp.isCaptured = true →
        cp.capturingPlayer = 1 ∨ cp.capturingPlayer = 2
  | [], w, h => h
  | i :: rest, w, h => by
    apply runTicks_inv rest
    intro cp' hmem
    rw [checkTick_points] at hmem
    obtain ⟨cp, hcp, he⟩ := mem_tickPoints _ _ _ _ _ hmem
    subst he
    exact tickPoint_inv (h cp hcp)

theorem scoringPhase_award_one {now : Nat} {cp : CapturePoint}
    (hcap : cp.isCaptured = true) (h1 : cp.capturingPlayer = 1)
    (ht : 5000 ≤ now - cp.captureStart) :
    scoringPhase now cp = ({ cp with captureStart := now }, Award.playerOne) := by
  unfold scoringPhase
  rw [hcap, h1]
  simp [ht]

theorem scoringPhase_award_two {now : Nat} {cp : CapturePoint}
    (hcap : cp.isCaptured = true) (h2 : cp.capturingPlayer = 2)
    (ht : 5000 ≤ now - cp.captureStart) :
    scoringPhase now cp = ({ cp with captureStart := now }, Award.playerTwo) := by
  unfold scoringPhase
  rw [hcap, h2]
  simp [ht]

end VA

/-- C1: the claim says a push/pull on a valid target displaces it by a
cumulative Euclidean magnitude of exactly 1000 world units (ten steps of
magnitude 100), independent of the initial distance.  On the code this is
false: each goroutine step divides the already unit-normalised direction
vector by the distance a second time, so at initial distance 50 the ten
steps move the target from x = 50 to x = 70 — a total magnitude of 20
(squared: 400), not 1000 (squared: 1000000). -/
theorem c1_counterexample :
    VA.findClosest c1Actor c1World.players = some (c1Target, 2500) ∧
    VA.lookupPlayer 2 (VA.applyPush c1Actor c1World).players =
      some { c1Target with x := 70 } ∧
    ((70 : ℚ) - 50) ^ 2 + ((0 : ℚ) - 0) ^ 2 ≠ 1000 ^ 2 := by
  refine ⟨?_, ?_, by norm_num⟩
  · norm_num [VA.findClosest, VA.findClosestLoop, distSq, c1World, c1Actor,
      c1Target]
  · norm_num [VA.applyPush, VA.findClosest, VA.findClosestLoop, distSq,
      c1World, c1Actor, c1Target, VA.displacementTask, VA.displacementStep,
      VA.updatePlayer, VA.lookupPlayer, VA.stepDelta]

/-- C1 (amended): for a push or pull whose target check passes at squared
distance `d > 0`, the scheduled displacement moves the target by the
vector `(direction) * 1000 / d`: ten equal steps whose squared magnitude
is `100² / d` each, for a cumulative squared magnitude of `1000² / d` —
i.e. a total Euclidean magnitude of `1000 / distance`, inversely
proportional to the initial distance (not the constant 1000 of the
claim).  Push moves along actor→target, pull along target→actor. -/
theorem c1_amended (a t : VA.Player) (d : ℚ) (w : VA.World)
    (h : VA.findClosest a w.players = some (t, d))
    (hd0 : 0 < d) (hd : d < 100 ^ 2) :
    d = distSq a.x a.y t.x t.y ∧
    (VA.lookupPlayer t.id (VA.applyPush a w).players =
      (VA.lookupPlayer t.id w.players).map
        (fun q => { q with x := q.x + (t.x - a.x) * 1000 / d,
                           y := q.y + (t.y - a.y) * 1000 / d })) ∧
    (VA.lookupPlayer t.id (VA.applyPull a w).players =
      (VA.lookupPlayer t.id w.players).map
        (fun q => { q with x := q.x + (a.x - t.x) * 1000 / d,
                           y := q.y + (a.y - t.y) * 1000 / d })) ∧
    ((t.x - a.x) * 1000 / d) ^ 2 + ((t.y - a.y) * 1000 / d) ^ 2 =
      1000 ^ 2 / d ∧
    VA.stepDelta (t.x - a.x) d ^ 2 + VA.stepDelta (t.y - a.y) d ^ 2 =
      100 ^ 2 / d := by
  obtain ⟨hdist, hne, hmem, hmin⟩ := VA.findClosest_some h
  have hdne : d ≠ 0 := ne_of_gt hd0
  have hS : (t.x - a.x) ^ 2 + (t.y - a.y) ^ 2 = d := by
    rw [hdist]
    unfold distSq
    ring
  refine ⟨hdist, ?_, ?_, ?_, ?_⟩
  · rw [VA.applyPush_of_near h hd, VA.lookupPlayer_displacementTask_self]
    cases VA.lookupPlayer t.id w.players with
    | none => rfl
    | some p =>
      cases p
      simp only [Option.map_some', Option.some.injEq, VA.Player.mk.injEq]
      refine ⟨?_, ?_, ?_, ?_, ?_⟩ <;>
        first
          | trivial
          | (show _ = _
             unfold VA.stepDelta
             push_cast
             ring)
  · rw [VA.applyPull_of_near h hd, VA.lookupPlayer_displacementTask_self]
    cases VA.lookupPlayer t.id w.players with
    | none => rfl
    | some p =>
      cases p
      simp only [Option.map_some', Option.some.injEq, VA.Player.mk.injEq]
      refine ⟨?_, ?_, ?_, ?_, ?_⟩ <;>
        first
          | trivial
          | (show _ = _
             unfold VA.stepDelta
             push_cast
             ring)
  · field_simp
    linear_combination (1000 : ℚ) ^ 2 * d * hS
  · unfold VA.stepDelta
    field_simp
    linear_combination (1000000 : ℚ) * d * hS

/-- C1 witness: the amended displacement law evaluated on the concrete
distance-50 world. -/
theorem c1_witness :
    VA.stepDelta (c1Target.x - c1Actor.x) 2500 ^ 2 +
      VA.stepDelta (c1Target.y - c1Actor.y) 2500 ^ 2 = 100 ^ 2 / 2500 :=
  (c1_amended c1Actor c1Target 2500 c1World
    (by norm_num [VA.findClosest, VA.findClosestLoop, distSq, c1World,
      c1Actor, c1Target])
    (by norm_num) (by norm_num)).2.2.2.2

/-- C7: the claim's no-op condition is "the minimum distance exceeds 100".
The code's guard is `closestDistance < 100` (strict), so at distance
exactly 100 — squared distance 10000, which does not exceed 100² — the
action is nevertheless a silent no-op and no target is displaced,
contradicting the claim's "otherwise" branch. -/
theorem c7_counterexample :
    VA.findClosest c7Actor c7World.players = some (c7Other, 10000) ∧
    ¬ ((10000 : ℚ) > 100 ^ 2) ∧
    VA.applyPush c7Actor c7World = c7World ∧
    VA.applyPull c7Actor c7World = c7World := by
  refine ⟨?_, by norm_num, ?_, ?_⟩
  · norm_num [VA.findClosest, VA.findClosestLoop, distSq, c7World, c7Actor,
      c7Other]
  · norm_num [VA.applyPush, VA.findClosest, VA.findClosestLoop, distSq,
      c7World, c7Actor, c7Other]
  · norm_num [VA.applyPull, VA.findClosest, VA.findClosestLoop, distSq,
      c7World, c7Actor, c7Other]

/-- C7 (amended): with "exceeds 100" weakened to "is at least 100": if no
other player exists the action is a silent no-op; the scan returns the
first player attaining the minimum squared distance among all other-id
players; if that minimum is at least 100² the action is a silent no-op
(the whole world is unchanged, no error value exists); if it is strictly
below 100² the scheduled displacement acts exactly on the selected
minimum-distance target. -/
theorem c7_amended (a : VA.Player) (w : VA.World) :
    ((∀ kp ∈ w.players, kp.2.id = a.id) →
      VA.applyPush a w = w ∧ VA.applyPull a w = w) ∧
    (VA.findClosest a w.players = none →
      ∀ kp ∈ w.players, kp.2.id = a.id) ∧
    (∀ t d, VA.findClosest a w.players = some (t, d) →
      (100 ^ 2 ≤ d → VA.applyPush a w = w ∧ VA.applyPull a w = w) ∧
      d = distSq a.x a.y t.x t.y ∧ t.id ≠ a.id ∧
      (∃ k, (k, t) ∈ w.players) ∧
      (∀ kp ∈ w.players, kp.2.id ≠ a.id →
        d ≤ distSq a.x a.y kp.2.x kp.2.y) ∧
      (d < 100 ^ 2 →
        (VA.applyPush a w).players =
          VA.displacementTask t.id (t.x - a.x) (t.y - a.y) d 10 w.players ∧
        (VA.applyPull a w).players =
          VA.displacementTask t.id (a.x - t.x) (a.y - t.y) d 10 w.players)) := by
  refine ⟨?_, ?_, ?_⟩
  · intro hall
    have hn := VA.findClosest_eq_none hall
    exact ⟨VA.applyPush_of_none hn, VA.applyPull_of_none hn⟩
  · intro hn
    exact VA.findClosest_none hn
  · intro t d h
    obtain ⟨h1, h2, h3, h4⟩ := VA.findClosest_some h
    exact ⟨fun hd => ⟨VA.applyPush_of_far h hd, VA.applyPull_of_far h hd⟩,
      h1, h2, h3, h4,
      fun hd => ⟨VA.applyPush_of_near h hd, VA.applyPull_of_near h hd⟩⟩

/-- C7 witness: at distance 150 (out of range) both actions leave the
world unchanged. -/
theorem c7_witness :
    VA.applyPush c7Actor c7FarWorld = c7FarWorld ∧
    VA.applyPull c7Actor c7FarWorld = c7FarWorld :=
  ((c7_amended c7Actor c7FarWorld).2.2 c7FarOther 22500
    (by norm_num [VA.findClosest, VA.findClosestLoop, distSq, c7FarWorld,
      c7Actor, c7FarOther])).1 (by norm_num)

/-- C9: a background displacement task of any length mutates only the
targeted player's `x`/`y` fields (the map-form conclusion updates only
those two fields, so the target's id and cooldown timestamps survive);
every player under a different key is untouched, and `applyPush` /
`applyPull` never modify the capture point list or the score counters. -/
theorem c9_theorem (tid : Nat) (dx dy dsq : ℚ) (n : Nat)
    (ps : List (Nat × VA.Player)) (a : VA.Player) (w : VA.World) :
    (∀ pid, pid ≠ tid →
      VA.lookupPlayer pid (VA.displacementTask tid dx dy dsq n ps) =
        VA.lookupPlayer pid ps) ∧
    (VA.lookupPlayer tid (VA.displacementTask tid dx dy dsq n ps) =
      (VA.lookupPlayer tid ps).map
        (fun p => { p with x := p.x + n * VA.stepDelta dx dsq,
                           y := p.y + n * VA.stepDelta dy dsq })) ∧
    (VA.applyPush a w).capturePoints = w.capturePoints ∧
    (VA.applyPush a w).points1 = w.points1 ∧
    (VA.applyPush a w).points2 = w.points2 ∧
    (VA.applyPull a w).capturePoints = w.capturePoints ∧
    (VA.applyPull a w).points1 = w.points1 ∧
    (VA.applyPull a w).points2 = w.points2 := by
  obtain ⟨hp1, hp2, hp3⟩ := VA.applyPush_capturePoints a w
  obtain ⟨hq1, hq2, hq3⟩ := VA.applyPull_capturePoints a w
  exact ⟨fun pid hpid => VA.lookupPlayer_displacementTask_ne hpid dx dy dsq n ps,
    VA.lookupPlayer_displacementTask_self tid dx dy dsq n ps,
    hp1, hp2, hp3, hq1, hq2, hq3⟩

/-- C9 witness: on the concrete distance-50 world, a ten-step task aimed
at player 2 leaves player 1's record untouched. -/
theorem c9_witness :
    VA.lookupPlayer 1 (VA.displacementTask 2 50 0 2500 10 c1World.players) =
      VA.lookupPlayer 1 c1World.players :=
  (c9_theorem 2 50 0 2500 10 c1World.players c1Actor c1World).1 1 (by decide)

/-- C2: the claim says an update naming an unknown player id is a
defensive no-op and never crashes, in all transport variants.  On the
code this is false: every handler fetches `players[id]` without a nil
check, so a message with an unknown id that carries an `x` field
dereferences a nil `*Player` — a panic, modelled as the `none` result —
in all three variants. -/
theorem c2_counterexample :
    VA.lookupPlayer 99 c2WorldA.players = none ∧
    VA.handleMessage 0 c2WorldA c2Msg = none ∧
    VB.handleUDPMessage 0 c2WorldB c2Msg = none ∧
    VC.handleUDPMessage 0 c2WorldC c2Msg = none :=
  ⟨rfl, rfl, rfl, rfl⟩

/-- C2 (amended): for a message carrying an id absent from the players
store, the handler is a state no-op when the message carries no
panicking field — no coordinate field (`x`, `y`, nor `flipX` in the
per-player-scoring UDP variant) and an action tag, if any, other than
"push"/"pull" (`handleAction(nil, a)` dereferences the nil player only
in its "push"/"pull" switch cases).  If an `x` or `y` field is present
(or `flipX` in the per-player-scoring variant), or the action tag is
"push" or "pull", the handler dereferences the nil player pointer and
the process panics (result `none`), in all three transport variants.  No
player record is created or mutated in either case. -/
theorem c2_amended (now : Nat) (msg : Msg) (pid : Nat)
    (hid : msg.id = some pid)
    (wa : VA.World) (ha : VA.lookupPlayer pid wa.players = none)
    (wb : VB.World) (hb : VB.lookupPlayer pid wb.players = none)
    (wc : VC.World) (hc : VC.lookupPlayer pid wc.players = none) :
    (msg.x = none ∧ msg.y = none ∧
      (∀ a, msg.action = some a → a ≠ "push" ∧ a ≠ "pull") →
      VA.handleMessage now wa msg = some wa ∧
      VC.handleUDPMessage now wc msg = some wc) ∧
    (msg.x = none ∧ msg.y = none ∧ msg.flipX = none ∧
      (∀ a, msg.action = some a → a ≠ "push" ∧ a ≠ "pull") →
      VB.handleUDPMessage now wb msg = some wb) ∧
    ((msg.x ≠ none ∨ msg.y ≠ none ∨ msg.action = some "push" ∨
        msg.action = some "pull") →
      VA.handleMessage now wa msg = none ∧
      VB.handleUDPMessage now wb msg = none ∧
      VC.handleUDPMessage now wc msg = none) ∧
    (msg.flipX ≠ none → VB.handleUDPMessage now wb msg = none) := by
  refine ⟨?_, ?_, ?_, ?_⟩
  · rintro ⟨hx, hy, hact⟩
    cases hma : msg.action with
    | none =>
      exact ⟨by simp [VA.handleMessage, hid, ha, hx, hy, hma],
        by simp [VC.handleUDPMessage, hid, hc, hx, hy, hma]⟩
    | some a =>
      obtain ⟨hp1, hp2⟩ := hact a hma
      exact ⟨by simp [VA.handleMessage, hid, ha, hx, hy, hma, hp1, hp2],
        by simp [VC.handleUDPMessage, hid, hc, hx, hy, hma, hp1, hp2]⟩
  · rintro ⟨hx, hy, hfx, hact⟩
    cases hma : msg.action with
    | none => simp [VB.handleUDPMessage, hid, hb, hx, hy, hfx, hma]
    | some a =>
      obtain ⟨hp1, hp2⟩ := hact a hma
      simp [VB.handleUDPMessage, hid, hb, hx, hy, hfx, hma, hp1, hp2]
  · intro hfield
    rcases hfield with h | h | h | h
    · have h' : msg.x.isSome = true := Option.isSome_iff_ne_none.mpr h
      exact ⟨by simp [VA.handleMessage, hid, ha, h'],
        by simp [VB.handleUDPMessage, hid, hb, h'],
        by simp [VC.handleUDPMessage, hid, hc, h']⟩
    · have h' : msg.y.isSome = true := Option.isSome_iff_ne_none.mpr h
      exact ⟨by simp [VA.handleMessage, hid, ha, h'],
        by simp [VB.handleUDPMessage, hid, hb, h'],
        by simp [VC.handleUDPMessage, hid, hc, h']⟩
    · exact ⟨by simp [VA.handleMessage, hid, ha, h],
        by simp [VB.handleUDPMessage, hid, hb, h],
        by simp [VC.handleUDPMessage, hid, hc, h]⟩
    · exact ⟨by simp [VA.handleMessage, hid, ha, h],
        by simp [VB.handleUDPMessage, hid, hb, h],
        by simp [VC.handleUDPMessage, hid, hc, h]⟩
  · intro hfx
    have hfx' : msg.flipX.isSome = true := Option.isSome_iff_ne_none.mpr hfx
    simp [VB.handleUDPMessage, hid, hb, hfx']

/-- C2 witness: with an unknown id, a field-less message and a message
whose action tag is neither "push" nor "pull" are state no-ops in all
three variants. -/
theorem c2_witness :
    VA.handleMessage 0 c2WorldA c2IdOnlyMsg = some c2WorldA ∧
    VC.handleUDPMessage 0 c2WorldC c2IdOnlyMsg = some c2WorldC ∧
    VB.handleUDPMessage 0 c2WorldB c2IdOnlyMsg = some c2WorldB ∧
    VA.handleMessage 0 c2WorldA c2DanceMsg = some c2WorldA ∧
    VC.handleUDPMessage 0 c2WorldC c2DanceMsg = some c2WorldC ∧
    VB.handleUDPMessage 0 c2WorldB c2DanceMsg = some c2WorldB := by
  have h1 := c2_amended 0 c2IdOnlyMsg 99 rfl c2WorldA rfl c2WorldB rfl
    c2WorldC rfl
  have h2 := c2_amended 0 c2DanceMsg 99 rfl c2WorldA rfl c2WorldB rfl
    c2WorldC rfl
  have hno : ∀ a, c2IdOnlyMsg.action = some a → a ≠ "push" ∧ a ≠ "pull" := by
    intro a hcontra
    exact absurd hcontra (by simp [c2IdOnlyMsg])
  have hdance : ∀ a, c2DanceMsg.action = some a → a ≠ "push" ∧ a ≠ "pull" := by
    intro a hcontra
    have hae : some "dance" = some a := hcontra
    injection hae with hh
    subst hh
    exact ⟨by decide, by decide⟩
  exact ⟨(h1.1 ⟨rfl, rfl, hno⟩).1, (h1.1 ⟨rfl, rfl, hno⟩).2,
    h1.2.1 ⟨rfl, rfl, rfl, hno⟩,
    (h2.1 ⟨rfl, rfl, hdance⟩).1, (h2.1 ⟨rfl, rfl, hdance⟩).2,
    h2.2.1 ⟨rfl, rfl, rfl, hdance⟩⟩

/-- C10: every first-contact registration — the WebSocket variant's
`handleConnections` and both UDP variants' `handleUDPMessage` id-less
branch — creates the new player record at exactly (400, 400), for any
number of already-connected players. -/
theorem c10_theorem (wa : VA.World) (wb : VB.World) (wc : VC.World)
    (now : Nat) (msgb msgc : Msg) (nm sk : String)
    (hbid : msgb.id = none) (hbn : msgb.name = some nm)
    (hbs : msgb.skin = some sk) (hcid : msgc.id = none) :
    (VA.registerPlayer wa).1.players =
      (wa.players.length + 1,
        { id := wa.players.length + 1, x := 400, y := 400,
          lastPushTime := 0, lastPullTime := 0 }) :: wa.players ∧
    VB.handleUDPMessage now wb msgb =
      some { wb with players :=
        (wb.players.length + 1,
          { id := wb.players.length + 1, x := 400, y := 400, flipX := false,
            lastPushTime := 0, lastPullTime := 0,
            name := nm, skin := sk, points := 0 }) :: wb.players } ∧
    VC.handleUDPMessage now wc msgc =
      some { wc with players :=
        (wc.players.length + 1,
          { id := wc.players.length + 1, x := 400, y := 400,
            lastPushTime := 0, lastPullTime := 0 }) :: wc.players } := by
  refine ⟨rfl, ?_, ?_⟩
  · simp [VB.handleUDPMessage, hbid, hbn, hbs]
  · simp [VC.handleUDPMessage, hcid]

/-- C10 witness: concrete registrations land at (400, 400). -/
theorem c10_witness :
    VB.handleUDPMessage 0 c2WorldB c10MsgB =
      some { c2WorldB with players :=
        (c2WorldB.players.length + 1,
          { id := c2WorldB.players.length + 1, x := 400, y := 400,
            flipX := false, lastPushTime := 0, lastPullTime := 0,
            name := "bob", skin := "red", points := 0 }) ::
          c2WorldB.players } :=
  (c10_theorem c2WorldA c2WorldB c2WorldC 0 c10MsgB c10MsgC "bob" "red"
    rfl rfl rfl rfl).2.1

/-- C6: per-player, per-action cooldown.  An action is applied only when
more than 2 seconds have elapsed since the stored timestamp (so in
particular never when less than 2 seconds have elapsed — the claim's
"only if at least 2 seconds" direction); an applied invocation stamps the
player's record with the current time; a second invocation within 2
seconds of an applied one (its stored timestamp) is a complete no-op; and
a pull updates only the pull timestamp, leaving the push timestamp as it
was (per-action independence). -/
theorem c6_theorem (now t1 t2 : Nat) (p q : VA.Player) (w w' : VA.World) :
    (now - p.lastPushTime < 2000 → VA.handleAction now p "push" w = w) ∧
    (now - p.lastPullTime < 2000 → VA.handleAction now p "pull" w = w) ∧
    (VA.lookupPlayer p.id w.players = some p → 2000 < now - p.lastPushTime →
      VA.lookupPlayer p.id (VA.handleAction now p "push" w).players =
        some { p with lastPushTime := now }) ∧
    (VA.lookupPlayer p.id w.players = some p → 2000 < now - p.lastPullTime →
      VA.lookupPlayer p.id (VA.handleAction now p "pull" w).players =
        some { p with lastPullTime := now }) ∧
    (q.lastPushTime = t1 → t2 - t1 ≤ 2000 →
      VA.handleAction t2 q "push" w' = w') ∧
    (q.lastPullTime = t1 → t2 - t1 ≤ 2000 →
      VA.handleAction t2 q "pull" w' = w') := by
  refine ⟨?_, ?_, ?_, ?_, ?_, ?_⟩
  · intro hlt
    have hn : ¬ (2000 < now - p.lastPushTime) := by omega
    simp [VA.handleAction, hn]
  · intro hlt
    have hn : ¬ (2000 < now - p.lastPullTime) := by omega
    simp [VA.handleAction, hn]
  · intro hlook ht
    have hstep : VA.handleAction now p "push" w =
        VA.applyPush { p with lastPushTime := now }
          { w with players :=
              (VA.updatePlayer p.id (fun r => { r with lastPushTime := now })
                w.players) } := by
      simp [VA.handleAction, ht]
    rw [hstep]
    have hact := VA.lookupPlayer_applyPush_actor
      { p with lastPushTime := now }
      { w with players :=
          (VA.updatePlayer p.id (fun r => { r with lastPushTime := now })
            w.players) }
    rw [show ({ p with lastPushTime := now } : VA.Player).id = p.id from rfl]
      at hact
    rw [hact]
    show VA.lookupPlayer p.id
      (VA.updatePlayer p.id (fun r => { r with lastPushTime := now })
        w.players) = _
    rw [VA.lookupPlayer_updatePlayer_self, hlook]
    rfl
  · intro hlook ht
    have hstep : VA.handleAction now p "pull" w =
        VA.applyPull { p with lastPullTime := now }
          { w with players :=
              (VA.updatePlayer p.id (fun r => { r with lastPullTime := now })
                w.players) } := by
      simp [VA.handleAction, ht]
    rw [hstep]
    have hact := VA.lookupPlayer_applyPull_actor
      { p with lastPullTime := now }
      { w with players :=
          (VA.updatePlayer p.id (fun r => { r with lastPullTime := now })
            w.players) }
    rw [show ({ p with lastPullTime := now } : VA.Player).id = p.id from rfl]
      at hact
    rw [hact]
    show VA.lookupPlayer p.id
      (VA.updatePlayer p.id (fun r => { r with lastPullTime := now })
        w.players) = _
    rw [VA.lookupPlayer_updatePlayer_self, hlook]
    rfl
  · intro hq hle
    have hn : ¬ (2000 < t2 - q.lastPushTime) := by omega
    simp [VA.handleAction, hn]
  · intro hq hle
    have hn : ¬ (2000 < t2 - q.lastPullTime) := by omega
    simp [VA.handleAction, hn]

/-- C6 witness: player 1 pushes at t = 3000 ms (applied, timestamp
stamped), and a repeat push at t = 4500 ms — 1.5 s later — is a no-op. -/
theorem c6_witness :
    VA.lookupPlayer 1 (VA.handleAction 3000 c6Player "push" c6World).players =
      some { c6Player with lastPushTime := 3000 } ∧
    VA.handleAction 4500 { c6Player with lastPushTime := 3000 } "push"
      (VA.handleAction 3000 c6Player "push" c6World) =
      VA.handleAction 3000 c6Player "push" c6World := by
  constructor
  · exact (c6_theorem 3000 0 0 c6Player c6Player c6World c6World).2.2.1
      rfl (by decide)
  · exact (c6_theorem 0 3000 4500 c6Player
      { c6Player with lastPushTime := 3000 } c6World
      (VA.handleAction 3000 c6Player "push" c6World)).2.2.2.2.1
      rfl (by decide)

/-- VA per-tick dwell-completion lemmas packaged for the amended C3 and
the contested lemma for the amended C4 need these two cited code paths.
First, C3: the claim says any capture point solely occupied for at least
5 seconds transitions to captured with `capturing_player` set to the
occupant's id.  On the WebSocket variant this is false for an occupant
whose id is neither 1 nor 2: with players 1 (far away) and 3 (standing on
the first point) and two resolver ticks six seconds apart, the sole
occupant id 3 is invisible to the resolver and the point never becomes
captured. -/
theorem c3_counterexample :
    VA.initialCapturePoints.head? = some firstPointA ∧
    VA.isPlayerInZone (VA.lookupPlayer 3 c3Players) firstPointA = true ∧
    VA.isPlayerInZone (VA.lookupPlayer 1 c3Players) firstPointA = false ∧
    ((VA.runTicks c3Inputs VA.initialWorld).capturePoints.map
      VA.CapturePoint.isCaptured) = [false, false] := by
  refine ⟨rfl, ?_, ?_, ?_⟩
  · norm_num [VA.isPlayerInZone, VA.lookupPlayer, distSq, c3Players,
      c3PlayerThree, firstPointA]
  · norm_num [VA.isPlayerInZone, VA.lookupPlayer, distSq, c3Players,
      c3PlayerFar, firstPointA]
  · norm_num [VA.runTicks, VA.checkCapturePointsTick, VA.tickPoints,
      VA.tickPoint, VA.capturePhase, VA.scoringPhase, VA.dwellStep,
      VA.isPlayerInZone, VA.lookupPlayer, distSq, c3Inputs, c3Players,
      c3PlayerFar, c3PlayerThree, VA.initialWorld, VA.initialCapturePoints]

/-- C3 (amended): the dwell-completion rule holds per tick in the
per-player-scoring UDP variant for every sole occupant, and over any run
of ticks with a static sole occupant (dwell starts on the first tick and
capture fires on the first tick at least 5 s later); in the WebSocket
variant the same rule holds, but only when the sole occupant is the
player stored under key 1 or key 2 — those are the only ids the resolver
consults. -/
theorem c3_amended :
    (∀ (ps : List (Nat × VB.Player)) (now : Nat) (cp : VB.CapturePoint)
        (p : VB.Player),
      VB.findCapturingPlayer cp ps none = some p →
      cp.enterTime ≠ 0 → 5000 ≤ now - cp.enterTime → cp.isCaptured = false →
      VB.tickPointCapture ps now cp =
        { cp with currentCapturingPlayer := p.id, isCaptured := true,
                  capturingPlayer := p.id, captureStart := now,
                  enterTime := 0 }) ∧
    (∀ (ps : List (Nat × VB.Player)) (p : VB.Player) (ts : List Nat)
        (t0 T : Nat) (cp : VB.CapturePoint),
      VB.findCapturingPlayer cp ps none = some p →
      cp.isCaptured = false → cp.enterTime = 0 → t0 ≠ 0 → 5000 ≤ T - t0 →
      (VB.runPoint ((t0 :: ts ++ [T]).map (fun t => ⟨ps, t⟩)) cp).isCaptured
        = true ∧
      (VB.runPoint ((t0 :: ts ++ [T]).map
        (fun t => ⟨ps, t⟩)) cp).capturingPlayer = p.id) ∧
    (∀ (p1 p2 : Option VA.Player) (now : Nat) (cp : VA.CapturePoint),
      VA.isPlayerInZone p1 cp = true → VA.isPlayerInZone p2 cp = false →
      cp.enterTime ≠ 0 → 5000 ≤ now - cp.enterTime →
      VA.capturePhase p1 p2 now cp =
        { cp with isCaptured := true, capturingPlayer := 1,
                  captureStart := now, enterTime := 0 }) ∧
    (∀ (p1 p2 : Option VA.Player) (now : Nat) (cp : VA.CapturePoint),
      VA.isPlayerInZone p1 cp = false → VA.isPlayerInZone p2 cp = true →
      cp.enterTime ≠ 0 → 5000 ≤ now - cp.enterTime →
      VA.capturePhase p1 p2 now cp =
        { cp with isCaptured := true, capturingPlayer := 2,
                  captureStart := now, enterTime := 0 }) := by
  refine ⟨?_, ?_, ?_, ?_⟩
  · intro ps now cp p hocc he0 ht hcap
    exact VB.tickPointCapture_sole_capture hocc he0 ht (Or.inl hcap)
  · intro ps p ts t0 T cp hocc hcap he0 ht0 hT
    have hrun : VB.runPoint ((t0 :: ts ++ [T]).map (fun t => ⟨ps, t⟩)) cp =
        VB.runPoint ((ts ++ [T]).map (fun t => ⟨ps, t⟩))
          (VB.tickPointFull ps t0 cp) := rfl
    have hstart := @VB.tickPointCapture_sole_start ps t0 cp p hocc he0
    have hnc : ({ cp with currentCapturingPlayer := p.id, enterTime := t0 } :
        VB.CapturePoint).isCaptured = false := hcap
    have hfull : VB.tickPointFull ps t0 cp =
        { cp with currentCapturingPlayer := p.id, enterTime := t0 } := by
      unfold VB.tickPointFull
      rw [hstart, VB.tickPointScoring_not_captured hnc]
    have hocc' : VB.findCapturingPlayer
        ({ cp with currentCapturingPlayer := p.id, enterTime := t0 } :
          VB.CapturePoint) ps none = some p :=
      (@VB.findCapturingPlayer_congr
        { cp with currentCapturingPlayer := p.id, enterTime := t0 } cp
        rfl rfl rfl ps).trans hocc
    rw [hrun, hfull]
    exact VB.runPoint_sole_aux ps p ts T t0 _ hocc'
      (Or.inl ⟨hcap, rfl⟩) ht0 hT
  · intro p1 p2 now cp h1 h2 he0 ht
    unfold VA.capturePhase VA.dwellStep
    simp [h1, h2, he0, ht]
  · intro p1 p2 now cp h1 h2 he0 ht
    unfold VA.capturePhase VA.dwellStep
    simp [h1, h2, he0, ht]

/-- C3 witness: sole occupant id 7 with a dwell timer started at 1000 ms
captures the point at the 6001 ms tick. -/
theorem c3_witness :
    VB.tickPointCapture c3bPlayers 6001 c3bPoint =
      { c3bPoint with currentCapturingPlayer := 7, isCaptured := true,
                      capturingPlayer := 7, captureStart := 6001,
                      enterTime := 0 } := by
  have h := c3_amended.1 c3bPlayers 6001 c3bPoint c3bPlayer
    (by norm_num [VB.findCapturingPlayer, VB.isPlayerInZone, distSq,
      c3bPlayers, c3bPlayer, c3bPoint])
    (by decide) (by decide) rfl
  exact h

/-- C4: the claim says any tick seeing more than one player inside a
point resets the dwell timer and blocks capture, for any ids.  On the
WebSocket variant this is false: with players 1 and 3 both standing
inside the first point (and player 2 far away) for two ticks five
seconds apart, the resolver sees only player 1, treats the point as
solely occupied and captures it while it is contested. -/
theorem c4_counterexample :
    VA.initialCapturePoints.head? = some firstPointA ∧
    VA.isPlayerInZone (VA.lookupPlayer 1 c4Players) firstPointA = true ∧
    VA.isPlayerInZone (VA.lookupPlayer 3 c4Players) firstPointA = true ∧
    VA.lookupPlayer 1 c4Players ≠ VA.lookupPlayer 3 c4Players ∧
    ((VA.runTicks c4Inputs VA.initialWorld).capturePoints.map
      VA.CapturePoint.isCaptured) = [true, false] := by
  refine ⟨rfl, ?_, ?_, ?_, ?_⟩
  · norm_num [VA.isPlayerInZone, VA.lookupPlayer, distSq, c4Players,
      c4P1, firstPointA]
  · norm_num [VA.isPlayerInZone, VA.lookupPlayer, distSq, c4Players,
      c4P3, firstPointA]
  · norm_num [VA.lookupPlayer, c4Players, c4P1, c4P3]
  · norm_num [VA.runTicks, VA.checkCapturePointsTick, VA.tickPoints,
      VA.tickPoint, VA.capturePhase, VA.scoringPhase, VA.dwellStep,
      VA.isPlayerInZone, VA.lookupPlayer, distSq, c4Inputs, c4Players,
      c4P1, c4P2, c4P3, VA.initialWorld, VA.initialCapturePoints]

/-- C4 (amended): in the per-player-scoring UDP variant the contest rule
holds for any players: a tick seeing two or more occupants resets the
dwell timer to zero, clears the display field, and leaves `is_captured`
unchanged, and over any window in which every tick is contested the point
never changes its captured status.  In the WebSocket variant the rule
holds only for the pair of players stored under keys 1 and 2: when both
are in the zone the timer is reset and the captured status is
unchanged. -/
theorem c4_amended :
    (∀ (ps : List (Nat × VB.Player)) (now : Nat) (cp : VB.CapturePoint),
      2 ≤ (ps.filter (fun kp => VB.isPlayerInZone kp.2 cp)).length →
      VB.tickPointCapture ps now cp =
        { cp with enterTime := 0, currentCapturingPlayer := 0 } ∧
      (VB.tickPointFull ps now cp).isCaptured = cp.isCaptured ∧
      (VB.tickPointFull ps now cp).enterTime = 0) ∧
    (∀ (inputs : List VB.PointTickInput) (cp : VB.CapturePoint),
      (∀ i ∈ inputs,
        2 ≤ (i.players.filter (fun kp => VB.isPlayerInZone kp.2 cp)).length) →
      (VB.runPoint inputs cp).isCaptured = cp.isCaptured) ∧
    (∀ (p1 p2 : Option VA.Player) (now : Nat) (cp : VA.CapturePoint),
      VA.isPlayerInZone p1 cp = true → VA.isPlayerInZone p2 cp = true →
      VA.capturePhase p1 p2 now cp = { cp with enterTime := 0 } ∧
      (VA.tickPoint p1 p2 now cp).1.isCaptured = cp.isCaptured) := by
  refine ⟨?_, ?_, ?_⟩
  · intro ps now cp h
    obtain ⟨h1, h2⟩ := VB.tickPointFull_contested h
    exact ⟨VB.tickPointCapture_contested h, h1, h2⟩
  · intro inputs cp h
    exact VB.runPoint_contested cp inputs cp rfl rfl rfl h
  · intro p1 p2 now cp h1 h2
    have hphase : VA.capturePhase p1 p2 now cp = { cp with enterTime := 0 } := by
      unfold VA.capturePhase
      simp [h1, h2]
    refine ⟨hphase, ?_⟩
    unfold VA.tickPoint
    rw [hphase]
    exact (VA.scoringPhase_fields now { cp with enterTime := 0 }).1

/-- C4 witness: a ten-second contested window (two players inside the
whole time) leaves the first point uncaptured. -/
theorem c4_witness :
    (VB.runPoint c4bInputs
      { x := 300, y := 200, radius := 50, isCaptured := false,
        capturingPlayer := 0, currentCapturingPlayer := 0,
        captureStart := 0, enterTime := 0 }).isCaptured = false := by
  have h := c4_amended.2.1 c4bInputs
    { x := 300, y := 200, radius := 50, isCaptured := false,
      capturingPlayer := 0, currentCapturingPlayer := 0,
      captureStart := 0, enterTime := 0 }
    (by
      intro i hi
      simp only [c4bInputs, List.mem_cons, List.not_mem_nil, or_false] at hi
      rcases hi with rfl | rfl | rfl <;>
        norm_num [VB.isPlayerInZone, distSq, c4bPlayers, List.filter_cons])
  exact h

/-- C5: the periodic scoring rule.  In the WebSocket variant, for any
capture point of a reachable resolver state that is captured with a
non-zero owner, once at least 5 seconds have elapsed since
`capture_start` the scoring pass awards exactly one point to that owner's
global counter (owner 1 → `points1`, owner 2 → `points2`; reachable
owners are only 1 or 2) and resets `capture_start` to now.  In the
per-player-scoring UDP variant the scoring pass awards exactly one point
to `players[owner]` — incrementing only that record's `points` field —
and resets `capture_start`.  Iterating the scoring pass at the 100 ms
tick cadence from a fresh capture yields exactly `floor(t / 5 s)` points
after `t = 100·n` ms of continuous ownership. -/
theorem c5_theorem :
    (∀ (inputs : List VA.TickInput) (now : Nat) (cp : VA.CapturePoint),
      cp ∈ (VA.runTicks inputs VA.initialWorld).capturePoints →
      cp.isCaptured = true → cp.capturingPlayer ≠ 0 →
      5000 ≤ now - cp.captureStart →
      VA.scoringPhase now cp =
        ({ cp with captureStart := now },
          if cp.capturingPlayer = 1 then VA.Award.playerOne
          else VA.Award.playerTwo)) ∧
    (∀ (now : Nat) (cp : VB.CapturePoint),
      cp.isCaptured = true → cp.capturingPlayer ≠ 0 →
      5000 ≤ now - cp.captureStart →
      VB.tickPointScoring now cp =
        ({ cp with captureStart := now }, some cp.capturingPlayer)) ∧
    (∀ (owner q : Nat) (ps : List (Nat × VB.Player)),
      VB.lookupPlayer owner
        (VB.updatePlayer owner (fun p => { p with points := p.points + 1 }) ps) =
        (VB.lookupPlayer owner ps).map
          (fun p => { p with points := p.points + 1 }) ∧
      (q ≠ owner →
        VB.lookupPlayer q
          (VB.updatePlayer owner (fun p => { p with points := p.points + 1 }) ps) =
          VB.lookupPlayer q ps)) ∧
    (∀ (cp : VB.CapturePoint) (n : Nat),
      cp.isCaptured = true → cp.capturingPlayer ≠ 0 → cp.captureStart = 0 →
      (VB.scoringRun cp n).2 = 100 * n / 5000) := by
  refine ⟨?_, ?_, ?_, ?_⟩
  · intro inputs now cp hmem hcap hown ht
    have hbase : ∀ c ∈ VA.initialWorld.capturePoints, c.isCaptured = true →
        c.capturingPlayer = 1 ∨ c.capturingPlayer = 2 := by
      intro c hcmem
      simp only [VA.initialWorld, VA.initialCapturePoints, List.mem_cons,
        List.not_mem_nil, or_false] at hcmem
      rcases hcmem with rfl | rfl <;> simp
    rcases VA.runTicks_inv inputs VA.initialWorld hbase cp hmem hcap
      with h1 | h2
    · rw [if_pos h1]
      exact VA.scoringPhase_award_one hcap h1 ht
    · rw [if_neg (show ¬ cp.capturingPlayer = 1 by simp [h2])]
      exact VA.scoringPhase_award_two hcap h2 ht
  · intro now cp hcap hown ht
    exact VB.tickPointScoring_award hcap hown ht
  · intro owner q ps
    exact ⟨VB.lookupPlayerB_updatePlayer_self owner _ ps,
      fun hq => VB.lookupPlayerB_updatePlayer_ne hq _ ps⟩
  · intro cp n hcap hown hcs
    rw [VB.scoringRun_eq cp hcap hown hcs n]
    have : 100 * n / 5000 = n / 50 := by omega
    rw [this]

/-- C5 witness: the point captured by player 1 at 6001 ms (a reachable
state of the WebSocket resolver) is awarded at 12000 ms, and 120 scoring
ticks at the 100 ms cadence yield 12000/5000 = 2 points in the UDP
variant. -/
theorem c5_witness :
    VA.scoringPhase 12000 soloCapturedPointA =
      ({ soloCapturedPointA with captureStart := 12000 },
        if soloCapturedPointA.capturingPlayer = 1 then VA.Award.playerOne
        else VA.Award.playerTwo) ∧
    (VB.scoringRun c5bPoint 120).2 = 100 * 120 / 5000 := by
  constructor
  · exact c5_theorem.1 soloCaptureInputsA 12000 soloCapturedPointA
      (by norm_num [VA.runTicks, VA.checkCapturePointsTick, VA.tickPoints,
        VA.tickPoint, VA.capturePhase, VA.scoringPhase, VA.dwellStep,
        VA.isPlayerInZone, VA.lookupPlayer, distSq, soloCaptureInputsA,
        soloCapturePlayersA, soloCapturedPointA, VA.initialWorld,
        VA.initialCapturePoints, List.mem_cons])
      rfl (by decide) (by decide)
  · exact c5_theorem.2.2.2 c5bPoint 120 rfl (by decide) rfl

/-- C8: the claimed state invariant fails on the cited code.  In the
global-scoring UDP variant, a single player capturing the first point
leaves the state after the capturing tick with `is_captured = true` while
`enter_time = 1000 ≠ 0` (dwell timer not cleared although capture is
complete), and the very next tick resets `capturing_player` to 0 while
`is_captured` stays true — violating "`is_captured` implies
`capturing_player ≠ 0`" on a reachable state. -/
theorem c8_counterexample :
    ((VC.runTicks c8InputsTwo VC.initialWorld).capturePoints.map
      (fun cp => (cp.isCaptured, cp.capturingPlayer, cp.enterTime))) =
      [(true, 1, 1000), (false, 0, 0)] ∧
    ((VC.runTicks c8InputsThree VC.initialWorld).capturePoints.map
      (fun cp => (cp.isCaptured, cp.capturingPlayer, cp.enterTime))) =
      [(true, 0, 0), (false, 0, 0)] := by
  constructor <;>
    norm_num [VC.runTicks, VC.checkCapturePointsTick, VC.tickPoints,
      VC.tickPoint, VC.capturePlayersLoop, distSq, c8InputsTwo,
      c8InputsThree, c8Players, VC.initialWorld, VC.initialCapturePoints]

/-- C8 (amended): in the WebSocket variant, every state reachable from
process start by resolver ticks (with arbitrary handler activity between
ticks) satisfies the second conjunct of the claimed invariant: a captured
point's `capturing_player` is 1 or 2, hence non-zero.  The `enter_time`
conjunct and the UDP variant are excluded by the counterexample. -/
theorem c8_amended (inputs : List VA.TickInput) (cp : VA.CapturePoint)
    (hmem : cp ∈ (VA.runTicks inputs VA.initialWorld).capturePoints)
    (hcap : cp.isCaptured = true) : cp.capturingPlayer ≠ 0 := by
  have hbase : ∀ c ∈ VA.initialWorld.capturePoints, c.isCaptured = true →
      c.capturingPlayer = 1 ∨ c.capturingPlayer = 2 := by
    intro c hcmem
    simp only [VA.initialWorld, VA.initialCapturePoints, List.mem_cons,
      List.not_mem_nil, or_false] at hcmem
    rcases hcmem with rfl | rfl <;> simp
  rcases VA.runTicks_inv inputs VA.initialWorld hbase cp hmem hcap
    with h | h <;> simp [h]

/-- C8 witness: the invariant instantiated on the reachable
captured-by-player-1 state. -/
theorem c8_witness : soloCapturedPointA.capturingPlayer ≠ 0 :=
  c8_amended soloCaptureInputsA soloCapturedPointA
    (by norm_num [VA.runTicks, VA.checkCapturePointsTick, VA.tickPoints,
      VA.tickPoint, VA.capturePhase, VA.scoringPhase, VA.dwellStep,
      VA.isPlayerInZone, VA.lookupPlayer, distSq, soloCaptureInputsA,
      soloCapturePlayersA, soloCapturedPointA, VA.initialWorld,
      VA.initialCapturePoints, List.mem_cons])
    rfl
